import Mathlib

/-! Korifi: service binding repository and handlers, build controller

A shallow embedding of `api/repositories/service_binding_repository.go`, of
the service binding handler of `api/handlers/service_binding.go`, of the build
controller of `controllers/controllers/workloads/build/controller.go` and of
the organization quotas plugin, with the properties of the specification
stated and proved over it.

Store access is modelled by explicit state passing: a world is the state of the
object store together with the log of the calls made so far.  Reads are
functions of the store state, writes return the next state.
-/

namespace Korifi

/-! ## Kubernetes object model (the parts the code reads) -/

/-- A point in time (`metav1.Time`), as a number. -/
abbrev Time := Nat

/-- A Go `map[string]string`; looking up an absent key gives the empty string. -/
abbrev StringMap := List (String × String)

/-- The Go expression `m[key]` for a `map[string]string`. -/
def StringMap.get (m : StringMap) (key : String) : String :=
  (m.lookup key).getD ""

/-- The constant `metav1.ConditionTrue`. -/
def ConditionTrue : String := "True"

/-- The constant `metav1.ConditionFalse`. -/
def ConditionFalse : String := "False"

/-- The type `metav1.Condition`. -/
structure Condition where
  Type_ : String
  Status : String
  ObservedGeneration : Int := 0
  LastTransitionTime : Time := 0
  Reason : String := ""
  Message : String := ""
  deriving DecidableEq, Repr

/-- The function `meta.FindStatusCondition` of k8s.io/apimachinery: the first
condition of the given type, if any. -/
def FindStatusCondition (conditions : List Condition) (conditionType : String) :
    Option Condition :=
  match conditions with
  | [] => none
  | c :: rest =>
    if c.Type_ = conditionType then some c else FindStatusCondition rest conditionType

/-- The function `meta.IsStatusConditionPresentAndEqual` of k8s.io/apimachinery:
the loop returns at the first condition of the given type. -/
def IsStatusConditionPresentAndEqual (conditions : List Condition)
    (conditionType : String) (status : String) : Bool :=
  match conditions with
  | [] => false
  | c :: rest =>
    if c.Type_ = conditionType then decide (c.Status = status)
    else IsStatusConditionPresentAndEqual rest conditionType status

/-- The function `meta.IsStatusConditionTrue` of k8s.io/apimachinery. -/
def IsStatusConditionTrue (conditions : List Condition) (conditionType : String) : Bool :=
  IsStatusConditionPresentAndEqual conditions conditionType ConditionTrue

/-- The method `IsZero` of `time.Time`: the zero time is the number 0. -/
def Time.IsZero (t : Time) : Bool := t == 0

/-- The method `IsZero` of a `*metav1.Time`: a nil pointer and the zero time are zero. -/
def TimeIsZero : Option Time → Bool
  | none => true
  | some t => t.IsZero

/-- The type `metav1.OwnerReference`. -/
structure OwnerReference where
  APIVersion : String := ""
  Kind : String := ""
  Name : String := ""
  UID : String := ""
  Controller : Option Bool := none
  BlockOwnerDeletion : Option Bool := none
  deriving DecidableEq, Repr

/-- The fields of `metav1.ObjectMeta` that the code reads or writes. -/
structure ObjectMeta where
  Name : String := ""
  Namespace : String := ""
  Labels : StringMap := []
  Annotations : StringMap := []
  Generation : Int := 0
  CreationTimestamp : Time := 0
  DeletionTimestamp : Option Time := none
  OwnerReferences : List OwnerReference := []
  deriving DecidableEq, Repr

/-! ## JSON parameters

`encoding/json` is an imported package.  The parameter blob of a binding is
modelled by what `json.Unmarshal` into a `map[string]any` makes of its bytes. -/

/-- A value stored in a Go `map[string]any`. -/
inductive GoValue
  /-- A value that `json.Marshal` can encode, kept as its JSON text; a decoded
  value is kept as the JSON text it was read from. -/
  | json (text : String)
  /-- A value that `json.Marshal` rejects (a channel, a function, a complex number). -/
  | unsupported (kind : String)
  deriving DecidableEq, Repr

/-- A non-nil Go `map[string]any`, as the list of its entries. -/
abbrev GoMap := List (String × GoValue)

/-- The Go statement `m[key] = value`: the value of a key already present is
replaced, a new key is added. -/
def goMapSet (m : GoMap) (key : String) (value : GoValue) : GoMap :=
  match m with
  | [] => [(key, value)]
  | (k, v) :: rest =>
    if k = key then (k, value) :: rest else (k, v) :: goMapSet rest key value

/-- The bytes of a `runtime.RawExtension`, classified by their JSON reading. -/
inductive RawJSON
  /-- The JSON literal `null`. -/
  | null
  /-- A JSON object, each member with the JSON text of its value. -/
  | object (members : List (String × String))
  /-- Any other bytes: not JSON at all, or a JSON array, string, number or
  boolean; with the message of the error that `json.Unmarshal` into a map
  reports for them. -/
  | other (bytes : String) (unmarshalError : String)
  deriving DecidableEq, Repr

/-- The JSON text of a map value, when `json.Marshal` can encode it. -/
def GoValue.marshal : GoValue → Except String String
  | .json text => .ok text
  | .unsupported kind => .error ("json: unsupported type: " ++ kind)

/-- The members of a map as JSON, failing at the first value that cannot be encoded. -/
def marshalMembers : GoMap → Except String (List (String × String))
  | [] => .ok []
  | (k, v) :: rest =>
    match v.marshal with
    | .error e => .error e
    | .ok text =>
      match marshalMembers rest with
      | .error e => .error e
      | .ok members => .ok ((k, text) :: members)

/-- The call `json.Marshal(m)` for `m` of type `map[string]any`: a nil map
encodes as `null`. -/
def jsonMarshal : Option GoMap → Except String RawJSON
  | none => .ok .null
  | some m =>
    match marshalMembers m with
    | .error e => .error e
    | .ok members => .ok (.object members)

/-- The call `json.Unmarshal(raw, &parameters)` where `parameters` starts as the
empty map: the map afterwards, or the message of the decoding error.  JSON
`null` sets the map to nil (`none`); the members of an object are stored in
order, so of a repeated key the last value is kept. -/
def jsonUnmarshal : RawJSON → Except String (Option GoMap)
  | .null => .ok none
  | .object members =>
    .ok (some (members.foldl (fun m kv => goMapSet m kv.1 (GoValue.json kv.2)) []))
  | .other _ unmarshalError => .error unmarshalError

/-! ## Errors

Go `error` values.  The package `api/errors` is not part of the sources at
hand; its error kinds are those of the specification's taxonomy. -/

/-- An error returned by the object store client, by the reason of its status
(the `k8serrors.Is...` predicates read this reason). -/
inductive K8sError
  | forbidden (message : String)
  | notFound (message : String)
  | unauthorized (message : String)
  /-- A rejection by a validating webhook, with its rejection category. -/
  | admissionRejected (category : String) (message : String)
  | other (message : String)
  deriving DecidableEq, Repr

/-- The predicate `k8serrors.IsForbidden`. -/
def K8sError.IsForbidden : K8sError → Bool
  | .forbidden _ => true
  | _ => false

/-- The predicate `k8serrors.IsNotFound`. -/
def K8sError.IsNotFound : K8sError → Bool
  | .notFound _ => true
  | _ => false

/-- A Go `error` value as the repository and the handlers produce it. -/
inductive Err
  /-- The nil error, which occurs only as an absent cause. -/
  | nil
  /-- A store error passed on unchanged. -/
  | k8s (err : K8sError)
  /-- An error of an imported package, by its message. -/
  | text (message : String)
  /-- The result of `fmt.Errorf("<message>: %w", err)`. -/
  | wrap (message : String) (err : Err)
  | NotFoundError (cause : Err) (resourceType : String)
  | ForbiddenError (cause : Err) (resourceType : String)
  | UnprocessableEntityError (cause : Err) (detail : String)
  | UniquenessError (cause : Err) (detail : String)
  | InvalidAuthError (cause : Err)
  deriving DecidableEq, Repr

/-- Whether the error is a `NotFoundError` value. -/
def Err.isNotFound : Err → Bool
  | .NotFoundError _ _ => true
  | _ => false

/-- Whether the error is a `ForbiddenError` value. -/
def Err.isForbidden : Err → Bool
  | .ForbiddenError _ _ => true
  | _ => false

/-- Whether the error is an `UnprocessableEntityError` value. -/
def Err.isUnprocessableEntity : Err → Bool
  | .UnprocessableEntityError _ _ => true
  | _ => false

/-- Modelled from the spec: `validation.WebhookErrorToValidationError` is
declared in `controllers/webhooks/validation`, which is not part of the sources
at hand.  A validation rejection is surfaced by the store as a structured
"admission rejected" signal with a rejection category and a message. -/
def WebhookErrorToValidationError : K8sError → Option (String × String)
  | .admissionRejected category message => some (category, message)
  | _ => none

/-- Modelled from the spec: the constant `bindings.ServiceBindingErrorType` of
`controllers/webhooks/services/bindings`, the rejection category of a
uniqueness conflict of a binding. -/
def ServiceBindingErrorType : String := "ServiceBindingValidationError"

/-- Modelled from the spec: `apierrors.FromK8sError` is declared in
`api/errors`, which is not part of the sources at hand.  An admission rejection
becomes a semantic (unprocessable) error, an absent object NotFound, an
authorization failure Forbidden, a failed authentication an invalid-auth error;
any other store error is passed on unchanged. -/
def FromK8sError (err : K8sError) (resourceType : String) : Err :=
  match WebhookErrorToValidationError err with
  | some validationError => .UnprocessableEntityError (.k8s err) validationError.2
  | none =>
    match err with
    | .unauthorized _ => .InvalidAuthError (.k8s err)
    | .notFound _ => .NotFoundError (.k8s err) resourceType
    | .forbidden _ => .ForbiddenError (.k8s err) resourceType
    | _ => .k8s err

/-- The first `ForbiddenError` on the unwrap chain of an error (`errors.As`),
as its cause and resource type. -/
def Err.asForbidden : Err → Option (Err × String)
  | .ForbiddenError cause resourceType => some (cause, resourceType)
  | .wrap _ err => err.asForbidden
  | .NotFoundError cause _ => cause.asForbidden
  | .UnprocessableEntityError cause _ => cause.asForbidden
  | .UniquenessError cause _ => cause.asForbidden
  | .InvalidAuthError cause => cause.asForbidden
  | _ => none

/-- The first `NotFoundError` on the unwrap chain of an error (`errors.As`),
as its cause and resource type. -/
def Err.asNotFound : Err → Option (Err × String)
  | .NotFoundError cause resourceType => some (cause, resourceType)
  | .wrap _ err => err.asNotFound
  | .ForbiddenError cause _ => cause.asNotFound
  | .UnprocessableEntityError cause _ => cause.asNotFound
  | .UniquenessError cause _ => cause.asNotFound
  | .InvalidAuthError cause => cause.asNotFound
  | _ => none

/-- Modelled from the spec: `apierrors.ForbiddenAsNotFound` is declared in
`api/errors`, which is not part of the sources at hand.  An authorization
failure is translated to "not found" for the same resource type; any other
error is returned unchanged. -/
def ForbiddenAsNotFound (err : Err) : Err :=
  match err.asForbidden with
  | some (cause, resourceType) => .NotFoundError cause resourceType
  | none => err

/-- Modelled from the spec: `apierrors.AsUnprocessableEntity` is declared in
`api/errors`, which is not part of the sources at hand, here for the two error
types the repository passes (`ForbiddenError`, `NotFoundError`): an error of one
of them becomes an unprocessable-entity error with the given detail, and any
other error is returned unchanged. -/
def AsUnprocessableEntity (err : Err) (detail : String) : Err :=
  match err.asForbidden with
  | some (cause, _) => .UnprocessableEntityError cause detail
  | none =>
    match err.asNotFound with
    | some (cause, _) => .UnprocessableEntityError cause detail
    | none => err

/-- Modelled from the spec: `apierrors.LogAndReturn` is declared in
`api/errors`, which is not part of the sources at hand.  It logs the error and
returns it; the log line is not modelled. -/
def LogAndReturn (err : Err) : Err := err

/-! ## Korifi API types (`controllers/api/v1alpha1`), the parts the code reads -/

/-- The constant `korifiv1alpha1.StatusConditionReady`. -/
def StatusConditionReady : String := "Ready"

/-- The constant `korifiv1alpha1.BindingFailedCondition`. -/
def BindingFailedCondition : String := "BindingFailed"

/-- The constant `korifiv1alpha1.PlanGUIDLabelKey`. -/
def PlanGUIDLabelKey : String := "korifi.cloudfoundry.org/plan-guid"

/-- The constant `korifiv1alpha1.UserProvidedType`. -/
def UserProvidedType : String := "user-provided"

/-- The value of `korifiv1alpha1.GroupVersion.Identifier()`. -/
def GroupVersionIdentifier : String := "korifi.cloudfoundry.org/v1alpha1"

/-- The type `corev1.ObjectReference`, the fields the code sets. -/
structure ObjectReference where
  Kind : String := ""
  APIVersion : String := ""
  Name : String := ""
  deriving DecidableEq, Repr

/-- The type `corev1.LocalObjectReference`. -/
structure LocalObjectReference where
  Name : String := ""
  deriving DecidableEq, Repr

/-- The type `korifiv1alpha1.CFServiceBindingSpec`; `Parameters` is a pointer
to a `runtime.RawExtension`, `none` when nil. -/
structure CFServiceBindingSpec where
  DisplayName : Option String := none
  Service : ObjectReference := {}
  AppRef : LocalObjectReference := {}
  Parameters : Option RawJSON := none
  deriving DecidableEq, Repr

/-- The type `korifiv1alpha1.CFServiceBindingStatus`, the fields the code reads. -/
structure CFServiceBindingStatus where
  Conditions : List Condition := []
  ObservedGeneration : Int := 0
  deriving DecidableEq, Repr

/-- The type `korifiv1alpha1.CFServiceBinding`. -/
structure CFServiceBinding extends ObjectMeta where
  Spec : CFServiceBindingSpec := {}
  Status : CFServiceBindingStatus := {}
  deriving DecidableEq, Repr

/-- The type `korifiv1alpha1.Lifecycle`, the field the code reads. -/
structure Lifecycle where
  Type_ : String := ""
  deriving DecidableEq, Repr

/-- The type `korifiv1alpha1.CFAppSpec`, the field the code reads. -/
structure CFAppSpec where
  Lifecycle : Lifecycle := {}
  deriving DecidableEq, Repr

/-- The type `korifiv1alpha1.CFApp`, the fields the code reads. -/
structure CFApp extends ObjectMeta where
  Spec : CFAppSpec := {}
  deriving DecidableEq, Repr

/-- The type `korifiv1alpha1.CFServiceInstanceSpec`, the field the code reads. -/
structure CFServiceInstanceSpec where
  Type_ : String := ""
  deriving DecidableEq, Repr

/-- The type `korifiv1alpha1.CFServiceInstance`. -/
structure CFServiceInstance extends ObjectMeta where
  Spec : CFServiceInstanceSpec := {}
  deriving DecidableEq, Repr

/-! ## Repository records and messages (`api/repositories`) -/

/-- The constant `ServiceBindingResourceType`. -/
def ServiceBindingResourceType : String := "Service Binding"

/-- The constant `ServiceBindingTypeApp`. -/
def ServiceBindingTypeApp : String := "app"

/-- The constant `LabelServiceBindingProvisionedService`. -/
def LabelServiceBindingProvisionedService : String := "servicebinding.io/provisioned-service"

/-- The type `ServiceBindingLastOperation`. -/
structure ServiceBindingLastOperation where
  Type_ : String := ""
  State : String := ""
  Description : Option String := none
  CreatedAt : Time := 0
  UpdatedAt : Option Time := none
  deriving DecidableEq, Repr

/-- The type `ServiceBindingRecord`; a nil `Parameters` map is `none`. -/
structure ServiceBindingRecord where
  GUID : String := ""
  Type_ : String := ""
  Name : Option String := none
  AppGUID : String := ""
  ServiceInstanceGUID : String := ""
  SpaceGUID : String := ""
  Labels : StringMap := []
  Annotations : StringMap := []
  CreatedAt : Time := 0
  UpdatedAt : Option Time := none
  DeletedAt : Option Time := none
  LastOperation : ServiceBindingLastOperation := {}
  Parameters : Option GoMap := none
  Ready : Bool := false
  deriving DecidableEq, Repr

/-- The type `CreateServiceBindingMessage`; a nil `Parameters` map is `none`. -/
structure CreateServiceBindingMessage where
  Name : Option String := none
  ServiceInstanceGUID : String := ""
  AppGUID : String := ""
  SpaceGUID : String := ""
  Parameters : Option GoMap := none
  deriving DecidableEq, Repr

/-- The type `ListServiceBindingsMessage`. -/
structure ListServiceBindingsMessage where
  AppGUIDs : List String := []
  ServiceInstanceGUIDs : List String := []
  LabelSelector : String := ""
  PlanGUIDs : List String := []
  deriving DecidableEq, Repr

/-- Modelled from the spec: `tools.EmptyOrContains` is declared in the `tools`
package, which is not part of the sources at hand.  A filter field is a set of
values, OR-ed within the field, and an empty field does not restrict: the
result is true when the slice is empty or holds the element. -/
def EmptyOrContains (elements : List String) (e : String) : Bool :=
  if elements.length = 0 then true else elements.contains e

/-- The method `ListServiceBindingsMessage.matches`. -/
def ListServiceBindingsMessage.matches (m : ListServiceBindingsMessage)
    (serviceBinding : CFServiceBinding) : Bool :=
  EmptyOrContains m.ServiceInstanceGUIDs serviceBinding.Spec.Service.Name &&
    EmptyOrContains m.AppGUIDs serviceBinding.Spec.AppRef.Name &&
    EmptyOrContains m.PlanGUIDs (serviceBinding.Labels.get PlanGUIDLabelKey)

/-- The method `CreateServiceBindingMessage.toCFServiceBinding`.  The name
drawn by `uuid.NewString()` is the argument `guid`. -/
def CreateServiceBindingMessage.toCFServiceBinding (m : CreateServiceBindingMessage)
    (guid : String) : Except Err CFServiceBinding :=
  match jsonMarshal m.Parameters with
  | .error err => .error (.wrap "failed to marshal parameters" (.text err))
  | .ok parameterBytes =>
    .ok {
      Name := guid
      Namespace := m.SpaceGUID
      Labels := [(LabelServiceBindingProvisionedService, "true")]
      Spec := {
        DisplayName := m.Name
        Service := {
          Kind := "CFServiceInstance"
          APIVersion := GroupVersionIdentifier
          Name := m.ServiceInstanceGUID }
        AppRef := { Name := m.AppGUID }
        Parameters := some parameterBytes } }

/-- The function `isBindingReady`. -/
def isBindingReady (binding : CFServiceBinding) : Bool :=
  if binding.Generation ≠ binding.Status.ObservedGeneration then false
  else IsStatusConditionTrue binding.Status.Conditions StatusConditionReady

section Records

/- The helper `getLastUpdatedTime` of the repositories package is declared in a
file that is not part of the sources at hand; it is a parameter, read on the
object's metadata. -/
variable (getLastUpdatedTime : ObjectMeta → Option Time)

/-- The function `serviceBindingRecordLastOperation`. -/
def serviceBindingRecordLastOperation (binding : CFServiceBinding) :
    ServiceBindingLastOperation :=
  match binding.DeletionTimestamp with
  | some deletionTimestamp =>
    { Type_ := "delete"
      State := "in progress"
      CreatedAt := deletionTimestamp
      UpdatedAt := getLastUpdatedTime binding.toObjectMeta }
  | none =>
    match FindStatusCondition binding.Status.Conditions StatusConditionReady with
    | none =>
      { Type_ := "create"
        State := "initial"
        CreatedAt := binding.CreationTimestamp
        UpdatedAt := getLastUpdatedTime binding.toObjectMeta }
    | some readyCondition =>
      if readyCondition.Status = ConditionTrue then
        { Type_ := "create"
          State := "succeeded"
          CreatedAt := binding.CreationTimestamp
          UpdatedAt := getLastUpdatedTime binding.toObjectMeta }
      else if IsStatusConditionTrue binding.Status.Conditions BindingFailedCondition then
        { Type_ := "create"
          State := "failed"
          CreatedAt := binding.CreationTimestamp
          UpdatedAt := some readyCondition.LastTransitionTime }
      else
        { Type_ := "create"
          State := "in progress"
          CreatedAt := binding.CreationTimestamp
          UpdatedAt := some readyCondition.LastTransitionTime }

/-- The function `serviceBindingToRecord`. -/
def serviceBindingToRecord (binding : CFServiceBinding) :
    Except Err ServiceBindingRecord :=
  let parameters : Except String (Option GoMap) :=
    match binding.Spec.Parameters with
    | none => .ok (some [])
    | some raw => jsonUnmarshal raw
  match parameters with
  | .error err => .error (.wrap "failed to unmarshal binding parameters" (.text err))
  | .ok parameters =>
    .ok {
      GUID := binding.Name
      Type_ := ServiceBindingTypeApp
      Name := binding.Spec.DisplayName
      AppGUID := binding.Spec.AppRef.Name
      ServiceInstanceGUID := binding.Spec.Service.Name
      SpaceGUID := binding.Namespace
      Labels := binding.Labels
      Annotations := binding.Annotations
      CreatedAt := binding.CreationTimestamp
      UpdatedAt := getLastUpdatedTime binding.toObjectMeta
      DeletedAt := binding.DeletionTimestamp
      LastOperation := serviceBindingRecordLastOperation getLastUpdatedTime binding
      Ready := isBindingReady binding
      Parameters := parameters }

/-- The function `serviceBindingsToRecords`: the loop stops at the first
binding that has no record. -/
def serviceBindingsToRecords (serviceBindings : List CFServiceBinding)
    (serviceInstanceRecords : List ServiceBindingRecord := []) :
    Except Err (List ServiceBindingRecord) :=
  match serviceBindings with
  | [] => .ok serviceInstanceRecords
  | sb :: rest =>
    match serviceBindingToRecord getLastUpdatedTime sb with
    | .error err => .error err
    | .ok record => serviceBindingsToRecords rest (serviceInstanceRecords ++ [record])

/-! ## The store client and the repository's collaborators -/

/-- The caller identity (`authorization.Info`). -/
structure AuthInfo where
  Token : String := ""
  deriving DecidableEq, Repr

/-- A parsed label selector (`labels.Selector`), kept as its text. -/
abbrev Selector := String

/-- A call made through the identity-scoped client or to the condition awaiter. -/
inductive ClientCall
  | GetCFApp (ns name : String)
  | GetCFServiceInstance (ns name : String)
  | GetCFServiceBinding (ns name : String)
  | ListCFServiceBindings (ns : String) (labelSelector : Selector)
  | Create (obj : CFServiceBinding)
  | Delete (obj : CFServiceBinding)
  | AwaitCondition (obj : CFServiceBinding) (conditionType : String)
  deriving DecidableEq, Repr

/-- Whether the call is a `Create`. -/
def ClientCall.isCreate : ClientCall → Bool
  | .Create _ => true
  | _ => false

/-- Whether the call is an `AwaitCondition`. -/
def ClientCall.isAwaitCondition : ClientCall → Bool
  | .AwaitCondition _ _ => true
  | _ => false

/-- The state of the object store with the log of the calls made so far. -/
structure World (σ : Type) where
  store : σ
  calls : List ClientCall := []

/-- The world after one more call has been logged. -/
def World.logCall {σ : Type} (w : World σ) (c : ClientCall) : World σ :=
  { w with calls := w.calls ++ [c] }

/-- The identity-scoped client (`client.WithWatch`), one operation per object
kind the repository uses.  A read is a function of the store state; `Create`
and `Delete` also return the next state.  `Create` returns the object as the
store filled it in, which the Go client writes back through the pointer. -/
structure Client (σ : Type) where
  GetCFApp : σ → String → String → Except K8sError CFApp
  GetCFServiceInstance : σ → String → String → Except K8sError CFServiceInstance
  GetCFServiceBinding : σ → String → String → Except K8sError CFServiceBinding
  ListCFServiceBindings : σ → String → Selector → Except K8sError (List CFServiceBinding)
  Create : σ → CFServiceBinding → Except K8sError CFServiceBinding × σ
  Delete : σ → CFServiceBinding → Option K8sError × σ

/-- The type `ServiceBindingRepo`: what its fields provide.
`authorizedSpaceNamespaces` stands for the package helper of that name applied
to the field `namespacePermissions`; the helper is declared in a file that is
not part of the sources at hand. -/
structure ServiceBindingRepo (σ : Type) where
  BuildClient : AuthInfo → Except Err (Client σ)
  authorizedSpaceNamespaces : σ → AuthInfo → Except Err (List String)
  NamespaceFor : σ → String → String → Except Err String
  AwaitCondition : σ → Client σ → CFServiceBinding → String → Except Err CFServiceBinding × σ

variable {σ : Type}

/- The function `labels.Parse` of k8s.io/apimachinery is a parameter. -/
variable (labelsParse : String → Except String Selector)

/-- The method `ServiceBindingRepo.CreateServiceBinding`; `guid` is the name
that `uuid.NewString()` draws. -/
def ServiceBindingRepo.CreateServiceBinding (r : ServiceBindingRepo σ) (guid : String)
    (authInfo : AuthInfo) (message : CreateServiceBindingMessage) (w : World σ) :
    Except Err ServiceBindingRecord × World σ :=
  match r.BuildClient authInfo with
  | .error err => (.error (.wrap "failed to build user client" err), w)
  | .ok userClient =>
    match message.toCFServiceBinding guid with
    | .error err => (.error (.wrap "failed to convert to CfServiceBinding" err), w)
    | .ok cfServiceBinding =>
      let w := w.logCall (.GetCFApp cfServiceBinding.Namespace cfServiceBinding.Spec.AppRef.Name)
      match userClient.GetCFApp w.store cfServiceBinding.Namespace
          cfServiceBinding.Spec.AppRef.Name with
      | .error err =>
        (.error (AsUnprocessableEntity (FromK8sError err ServiceBindingResourceType)
          "Unable to use app. Ensure that the app exists and you have access to it."), w)
      | .ok _ =>
        let w := w.logCall (.Create cfServiceBinding)
        match userClient.Create w.store cfServiceBinding with
        | (.error err, store) =>
          let w := { w with store := store }
          match WebhookErrorToValidationError err with
          | some validationError =>
            if validationError.1 = ServiceBindingErrorType then
              (.error (.UniquenessError (.k8s err) validationError.2), w)
            else (.error (FromK8sError err ServiceBindingResourceType), w)
          | none => (.error (FromK8sError err ServiceBindingResourceType), w)
        | (.ok cfServiceBinding, store) =>
          let w := { w with store := store }
          let w := w.logCall
            (.GetCFServiceInstance cfServiceBinding.Namespace cfServiceBinding.Spec.Service.Name)
          match userClient.GetCFServiceInstance w.store cfServiceBinding.Namespace
              cfServiceBinding.Spec.Service.Name with
          | .error err =>
            (.error (.wrap "failed to get service instance" (.k8s err)), w)
          | .ok cfServiceInstance =>
            if cfServiceInstance.Spec.Type_ = UserProvidedType then
              let w := w.logCall (.AwaitCondition cfServiceBinding StatusConditionReady)
              match r.AwaitCondition w.store userClient cfServiceBinding StatusConditionReady with
              | (.error err, store) => (.error err, { w with store := store })
              | (.ok cfServiceBinding, store) =>
                (serviceBindingToRecord getLastUpdatedTime cfServiceBinding,
                  { w with store := store })
            else (serviceBindingToRecord getLastUpdatedTime cfServiceBinding, w)

/-- The method `ServiceBindingRepo.DeleteServiceBinding`; it returns the error,
`none` for nil. -/
def ServiceBindingRepo.DeleteServiceBinding (r : ServiceBindingRepo σ)
    (authInfo : AuthInfo) (guid : String) (w : World σ) : Option Err × World σ :=
  match r.BuildClient authInfo with
  | .error err => (some (.wrap "failed to build user client" err), w)
  | .ok userClient =>
    match r.NamespaceFor w.store guid ServiceBindingResourceType with
    | .error err => (some err, w)
    | .ok namespace_ =>
      let w := w.logCall (.GetCFServiceBinding namespace_ guid)
      match userClient.GetCFServiceBinding w.store namespace_ guid with
      | .error err =>
        (some (ForbiddenAsNotFound (FromK8sError err ServiceBindingResourceType)), w)
      | .ok binding =>
        let w := w.logCall (.Delete binding)
        match userClient.Delete w.store binding with
        | (some err, store) =>
          (some (FromK8sError err ServiceBindingResourceType), { w with store := store })
        | (none, store) => (none, { w with store := store })

/-- The method `ServiceBindingRepo.GetServiceBinding`. -/
def ServiceBindingRepo.GetServiceBinding (r : ServiceBindingRepo σ)
    (authInfo : AuthInfo) (guid : String) (w : World σ) :
    Except Err ServiceBindingRecord × World σ :=
  match r.NamespaceFor w.store guid ServiceBindingResourceType with
  | .error err => (.error err, w)
  | .ok ns =>
    match r.BuildClient authInfo with
    | .error err => (.error (.wrap "get-service-binding failed to create user client" err), w)
    | .ok userClient =>
      let w := w.logCall (.GetCFServiceBinding ns guid)
      match userClient.GetCFServiceBinding w.store ns guid with
      | .error err => (.error (FromK8sError err ServiceBindingResourceType), w)
      | .ok serviceBinding => (serviceBindingToRecord getLastUpdatedTime serviceBinding, w)

/-- The loop of `ListServiceBindings` over the authorized namespaces: the
bindings collected, or the error of the first namespace whose list fails other
than by Forbidden. -/
def listServiceBindingsLoop (userClient : Client σ) (labelSelector : Selector)
    (namespaces : List String) (serviceBindings : List CFServiceBinding) (w : World σ) :
    Except Err (List CFServiceBinding) × World σ :=
  match namespaces with
  | [] => (.ok serviceBindings, w)
  | ns :: rest =>
    let w := w.logCall (.ListCFServiceBindings ns labelSelector)
    match userClient.ListCFServiceBindings w.store ns labelSelector with
    | .error err =>
      if err.IsForbidden then
        listServiceBindingsLoop userClient labelSelector rest serviceBindings w
      else
        (.error (.wrap ("failed to list service instances in namespace " ++ ns)
          (FromK8sError err ServiceBindingResourceType)), w)
    | .ok items =>
      listServiceBindingsLoop userClient labelSelector rest (serviceBindings ++ items) w

/-- The method `ServiceBindingRepo.ListServiceBindings`. -/
def ServiceBindingRepo.ListServiceBindings (r : ServiceBindingRepo σ)
    (authInfo : AuthInfo) (message : ListServiceBindingsMessage) (w : World σ) :
    Except Err (List ServiceBindingRecord) × World σ :=
  match r.BuildClient authInfo with
  | .error err => (.error (.wrap "failed to build user client" err), w)
  | .ok userClient =>
    match r.authorizedSpaceNamespaces w.store authInfo with
    | .error err =>
      (.error (.wrap "failed to list namespaces for spaces with user role bindings" err), w)
    | .ok authorizedSpaceNamespaces =>
      match labelsParse message.LabelSelector with
      | .error err => (.error (.UnprocessableEntityError (.text err) "invalid label selector"), w)
      | .ok labelSelector =>
        match listServiceBindingsLoop userClient labelSelector authorizedSpaceNamespaces [] w with
        | (.error err, w) => (.error err, w)
        | (.ok serviceBindings, w) =>
          let filteredServiceBindings := serviceBindings.filter message.matches
          (serviceBindingsToRecords getLastUpdatedTime filteredServiceBindings, w)

/-! ## The service binding handler (`api/handlers/service_binding.go`) -/

/-- The type `repositories.AppRecord`, the fields the handler reads. -/
structure AppRecord where
  GUID : String := ""
  SpaceGUID : String := ""
  deriving DecidableEq, Repr

/-- The type `repositories.ServiceInstanceRecord`, the fields the handler reads. -/
structure ServiceInstanceRecord where
  GUID : String := ""
  SpaceGUID : String := ""
  deriving DecidableEq, Repr

/-- The type `payloads.ServiceBindingCreate`, with the GUIDs of
`Relationships.App.Data` and `Relationships.ServiceInstance.Data` as fields. -/
structure ServiceBindingCreate where
  Type_ : String := ""
  Name : Option String := none
  AppGUID : String := ""
  ServiceInstanceGUID : String := ""
  Parameters : Option GoMap := none
  deriving DecidableEq, Repr

/-- Modelled from the spec: `payloads.ServiceBindingCreate.ToMessage` is declared
in a file of `api/payloads` that is not part of the sources at hand.  The
create message carries the payload's name, its two relationships and its
parameters, in the given space. -/
def ServiceBindingCreate.ToMessage (p : ServiceBindingCreate) (spaceGUID : String) :
    CreateServiceBindingMessage :=
  { Name := p.Name
    ServiceInstanceGUID := p.ServiceInstanceGUID
    AppGUID := p.AppGUID
    SpaceGUID := spaceGUID
    Parameters := p.Parameters }

/-- A call the handler makes to one of its repositories. -/
inductive RepoCall
  | GetApp (guid : String)
  | GetServiceInstance (guid : String)
  | CreateServiceBinding (message : CreateServiceBindingMessage)
  | GetServiceBinding (guid : String)
  deriving DecidableEq, Repr

/-- Whether the call is a `CreateServiceBinding`. -/
def RepoCall.isCreateServiceBinding : RepoCall → Bool
  | .CreateServiceBinding _ => true
  | _ => false

/-- The state behind the handler's repositories with the log of the repository
calls made so far. -/
structure HandlerWorld (τ : Type) where
  state : τ
  repoCalls : List RepoCall := []

/-- The handler world after one more repository call has been logged. -/
def HandlerWorld.logCall {τ : Type} (w : HandlerWorld τ) (c : RepoCall) : HandlerWorld τ :=
  { w with repoCalls := w.repoCalls ++ [c] }

/-- The handler type `ServiceBinding`: the methods of its repository
interfaces (`CFAppRepository`, `CFServiceInstanceRepository`,
`CFServiceBindingRepository`) that `createTypeApp` and `get` call. -/
structure ServiceBinding (τ : Type) where
  GetApp : τ → AuthInfo → String → Except Err AppRecord × τ
  GetServiceInstance : τ → AuthInfo → String → Except Err ServiceInstanceRecord × τ
  CreateServiceBinding : τ → AuthInfo → CreateServiceBindingMessage →
    Except Err ServiceBindingRecord × τ
  GetServiceBinding : τ → AuthInfo → String → Except Err ServiceBindingRecord × τ

/-- The constant `http.StatusOK`. -/
def StatusOK : Nat := 200

/-- The type `routing.Response` of a service binding response: the status and
the record that `presenter.ForServiceBinding` presents as the body. -/
structure Response where
  httpStatus : Nat
  body : ServiceBindingRecord
  deriving DecidableEq, Repr

variable {τ : Type}

/-- The method `ServiceBinding.createTypeApp`. -/
def ServiceBinding.createTypeApp (h : ServiceBinding τ) (authInfo : AuthInfo)
    (payload : ServiceBindingCreate) (w : HandlerWorld τ) :
    Except Err ServiceBindingRecord × HandlerWorld τ :=
  let w := w.logCall (.GetApp payload.AppGUID)
  match h.GetApp w.state authInfo payload.AppGUID with
  | (.error err, state) =>
    (.error (LogAndReturn (ForbiddenAsNotFound err)), { w with state := state })
  | (.ok app, state) =>
    let w := { w with state := state }
    let w := w.logCall (.GetServiceInstance payload.ServiceInstanceGUID)
    match h.GetServiceInstance w.state authInfo payload.ServiceInstanceGUID with
    | (.error err, state) =>
      (.error (LogAndReturn (ForbiddenAsNotFound err)), { w with state := state })
    | (.ok serviceInstance, state) =>
      let w := { w with state := state }
      if app.SpaceGUID ≠ serviceInstance.SpaceGUID then
        (.error (LogAndReturn (.UnprocessableEntityError .nil
          "The service instance and the app are in different spaces")), w)
      else
        let w := w.logCall (.CreateServiceBinding (payload.ToMessage app.SpaceGUID))
        match h.CreateServiceBinding w.state authInfo (payload.ToMessage app.SpaceGUID) with
        | (.error err, state) => (.error (LogAndReturn err), { w with state := state })
        | (.ok serviceBinding, state) => (.ok serviceBinding, { w with state := state })

/-- The method `ServiceBinding.get`, on the caller identity and the `guid` URL
parameter of the request. -/
def ServiceBinding.get (h : ServiceBinding τ) (authInfo : AuthInfo)
    (serviceBindingGUID : String) (w : HandlerWorld τ) :
    Except Err Response × HandlerWorld τ :=
  let w := w.logCall (.GetServiceBinding serviceBindingGUID)
  match h.GetServiceBinding w.state authInfo serviceBindingGUID with
  | (.error err, state) =>
    (.error (LogAndReturn (ForbiddenAsNotFound err)), { w with state := state })
  | (.ok serviceBinding, state) =>
    (.ok { httpStatus := StatusOK, body := serviceBinding }, { w with state := state })

/-- The constructor `NewServiceBinding` with the repository of this file as
service binding repository; `guid` is the name a create draws. -/
def NewServiceBinding (serviceBindingRepo : ServiceBindingRepo σ) (guid : String)
    (GetApp : World σ → AuthInfo → String → Except Err AppRecord × World σ)
    (GetServiceInstance :
      World σ → AuthInfo → String → Except Err ServiceInstanceRecord × World σ) :
    ServiceBinding (World σ) :=
  { GetApp := GetApp
    GetServiceInstance := GetServiceInstance
    CreateServiceBinding := fun w authInfo message =>
      serviceBindingRepo.CreateServiceBinding getLastUpdatedTime guid authInfo message w
    GetServiceBinding := fun w authInfo guid_ =>
      serviceBindingRepo.GetServiceBinding getLastUpdatedTime authInfo guid_ w }

end Records

/-! ## A concrete store for worked examples

A store with role-based access for one caller: in a namespace listed as
forbidden every call of the caller is rejected as Forbidden, in a namespace
listed as read-only the reads succeed and the writes are rejected as
Forbidden. -/

/-- The objects of the example store and the caller's access to its namespaces. -/
structure ExampleStore where
  apps : List CFApp := []
  instances : List CFServiceInstance := []
  bindings : List CFServiceBinding := []
  forbiddenNamespaces : List String := []
  readOnlyNamespaces : List String := []
  deriving DecidableEq, Repr

/-- A read of one object of the example store by namespace and name. -/
def ExampleStore.read {α : Type} (store : ExampleStore) (objects : List α)
    (meta_ : α → ObjectMeta) (ns name : String) : Except K8sError α :=
  if store.forbiddenNamespaces.contains ns then .error (.forbidden ns)
  else
    match objects.find? (fun o => (meta_ o).Namespace == ns && (meta_ o).Name == name) with
    | some o => .ok o
    | none => .error (.notFound name)

/-- The caller's client on the example store. -/
def exampleClient : Client ExampleStore :=
  { GetCFApp := fun store ns name => store.read store.apps CFApp.toObjectMeta ns name
    GetCFServiceInstance := fun store ns name =>
      store.read store.instances CFServiceInstance.toObjectMeta ns name
    GetCFServiceBinding := fun store ns name =>
      store.read store.bindings CFServiceBinding.toObjectMeta ns name
    ListCFServiceBindings := fun store ns _ =>
      if store.forbiddenNamespaces.contains ns then .error (.forbidden ns)
      else .ok (store.bindings.filter (fun b => b.Namespace == ns))
    Create := fun store obj =>
      if store.forbiddenNamespaces.contains obj.Namespace
          || store.readOnlyNamespaces.contains obj.Namespace then
        (.error (.forbidden obj.Namespace), store)
      else (.ok obj, { store with bindings := store.bindings ++ [obj] })
    Delete := fun store obj =>
      if store.forbiddenNamespaces.contains obj.Namespace
          || store.readOnlyNamespaces.contains obj.Namespace then
        (some (.forbidden obj.Namespace), store)
      else
        (none, { store with
          bindings := store.bindings.filter
            (fun b => !(b.Namespace == obj.Namespace && b.Name == obj.Name)) }) }

/-- The example repository: the namespace of a binding is looked up among all
bindings, the caller's spaces are fixed, and the awaiter returns the binding as
a controller leaves it once it is ready. -/
def exampleRepo : ServiceBindingRepo ExampleStore :=
  { BuildClient := fun _ => .ok exampleClient
    authorizedSpaceNamespaces := fun _ _ => .ok ["space-a", "space-b"]
    NamespaceFor := fun store guid resourceType =>
      match store.bindings.find? (fun b => b.Name == guid) with
      | some b => .ok b.Namespace
      | none => .error (.NotFoundError .nil resourceType)
    AwaitCondition := fun store _ obj conditionType =>
      (.ok { obj with
        Status := { Conditions := [{ Type_ := conditionType, Status := ConditionTrue }]
                    ObservedGeneration := obj.Generation } }, store) }

/-- An example handler over a counter of the bindings created: the app lives
in space "space-a", the service instance in the space named by its GUID. -/
def exampleHandler : ServiceBinding Nat :=
  { GetApp := fun n _ guid => (.ok { GUID := guid, SpaceGUID := "space-a" }, n)
    GetServiceInstance := fun n _ guid => (.ok { GUID := guid, SpaceGUID := guid }, n)
    CreateServiceBinding := fun n _ message =>
      (.ok { GUID := "guid-1", AppGUID := message.AppGUID, SpaceGUID := message.SpaceGUID },
        n + 1)
    GetServiceBinding := fun n _ guid => (.error (.NotFoundError .nil guid), n) }

/-- An example store with the app "app-1" in "space-1" and no service instance. -/
def storeWithoutInstance : ExampleStore :=
  { apps := [{ Name := "app-1", Namespace := "space-1" }] }

/-- An example store with the app "app-1" and the user-provided service
instance "si-1" in "space-1". -/
def storeWithUserProvidedInstance : ExampleStore :=
  { apps := [{ Name := "app-1", Namespace := "space-1" }]
    instances := [{ Name := "si-1", Namespace := "space-1", Spec := { Type_ := UserProvidedType } }] }

/-- An example create message: bind "app-1" to "si-1" in "space-1". -/
def exampleCreateMessage : CreateServiceBindingMessage :=
  { Name := some "db", ServiceInstanceGUID := "si-1", AppGUID := "app-1", SpaceGUID := "space-1" }

/-- The object that `toCFServiceBinding` builds from the example create message
under the name "guid-1". -/
def exampleCreatedBinding : CFServiceBinding :=
  { Name := "guid-1"
    Namespace := "space-1"
    Labels := [(LabelServiceBindingProvisionedService, "true")]
    Spec := { DisplayName := some "db"
              Service := { Kind := "CFServiceInstance", APIVersion := GroupVersionIdentifier,
                           Name := "si-1" }
              AppRef := { Name := "app-1" }
              Parameters := some .null } }

/-- An example store with the binding "b-1" in a namespace where the caller
has no role. -/
def storeWithHiddenBinding : ExampleStore :=
  { bindings := [{ Name := "b-1", Namespace := "space-x" }]
    forbiddenNamespaces := ["space-x"] }

/-- An example store with the binding "b-1" in a namespace where the caller may
read and may not write. -/
def storeWithReadOnlyBinding : ExampleStore :=
  { bindings := [{ Name := "b-1", Namespace := "space-r" }]
    readOnlyNamespaces := ["space-r"] }

/-- The bindings that the caller's lists return over the given namespaces, in
namespace order: a namespace whose list fails contributes nothing.  This is the
merged result the specification describes, against which the loop of
`ListServiceBindings` is compared. -/
def listedBindings {σ : Type} (userClient : Client σ) (store : σ) (labelSelector : Selector)
    (namespaces : List String) : List CFServiceBinding :=
  match namespaces with
  | [] => []
  | ns :: rest =>
    (match userClient.ListCFServiceBindings store ns labelSelector with
      | .ok items => items
      | .error _ => []) ++ listedBindings userClient store labelSelector rest

/-- Example parameter bytes: the JSON array `[1]`, with the error that
`json.Unmarshal` into a `map[string]any` reports for an array. -/
def arrayParameters : RawJSON :=
  .other "[1]" "json: cannot unmarshal array into Go value of type map[string]interface \x7b\x7d"

/-- An example store: the caller has no role in "space-a", and "space-b" holds
a binding whose parameters are a JSON array. -/
def storeWithArrayParameters : ExampleStore :=
  { bindings := [{ Name := "b-1", Namespace := "space-b",
                   Spec := { Parameters := some arrayParameters } }]
    forbiddenNamespaces := ["space-a"] }

/-- An example store: the caller has no role in "space-a", which holds a
binding, and "space-b" holds two bindings of two apps. -/
def storeWithTwoSpaces : ExampleStore :=
  { bindings := [{ Name := "b-0", Namespace := "space-a", Spec := { AppRef := { Name := "app-1" } } },
                 { Name := "b-1", Namespace := "space-b", Spec := { AppRef := { Name := "app-1" } } },
                 { Name := "b-2", Namespace := "space-b", Spec := { AppRef := { Name := "app-2" } } }]
    forbiddenNamespaces := ["space-a"] }

/-! ## The build controller (`controllers/controllers/workloads/build/controller.go`) -/

/-- The constant `korifiv1alpha1.SucceededConditionType`. -/
def SucceededConditionType : String := "Succeeded"

/-- The constant `korifiv1alpha1.StagingConditionType`. -/
def StagingConditionType : String := "Staging"

/-- The type `korifiv1alpha1.CFBuildSpec`, the fields the code reads. -/
structure CFBuildSpec where
  PackageRef : LocalObjectReference := {}
  AppRef : LocalObjectReference := {}
  Lifecycle : Lifecycle := {}
  deriving DecidableEq, Repr

/-- The type `korifiv1alpha1.CFBuildStatus`, the fields the code reads or writes. -/
structure CFBuildStatus where
  Conditions : List Condition := []
  ObservedGeneration : Int := 0
  deriving DecidableEq, Repr

/-- The type `korifiv1alpha1.CFBuild`. -/
structure CFBuild extends ObjectMeta where
  Spec : CFBuildSpec := {}
  Status : CFBuildStatus := {}
  deriving DecidableEq, Repr

/-- The type `korifiv1alpha1.CFPackageSpec`, the field the code reads. -/
structure CFPackageSpec where
  Type_ : String := ""
  deriving DecidableEq, Repr

/-- The type `korifiv1alpha1.CFPackage`. -/
structure CFPackage extends ObjectMeta where
  Spec : CFPackageSpec := {}
  deriving DecidableEq, Repr

/-- The type `ctrl.Result`; durations are numbers. -/
structure Result where
  Requeue : Bool := false
  RequeueAfter : Nat := 0
  deriving DecidableEq, Repr

/-- The function `meta.SetStatusCondition` of k8s.io/apimachinery, as the list
afterwards: the first condition of the new condition's type is updated in
place, its transition time only when the status changes; when there is none
the new condition is appended.  `now` is the value of `time.Now()`. -/
def SetStatusCondition (now : Time) (conditions : List Condition) (newCondition : Condition) :
    List Condition :=
  match conditions with
  | [] =>
    [if newCondition.LastTransitionTime.IsZero then
        { newCondition with LastTransitionTime := now }
      else newCondition]
  | existingCondition :: rest =>
    if existingCondition.Type_ = newCondition.Type_ then
      { existingCondition with
        Status := newCondition.Status
        LastTransitionTime :=
          if existingCondition.Status ≠ newCondition.Status then
            if !newCondition.LastTransitionTime.IsZero then newCondition.LastTransitionTime
            else now
          else existingCondition.LastTransitionTime
        Reason := newCondition.Reason
        Message := newCondition.Message
        ObservedGeneration := newCondition.ObservedGeneration } :: rest
    else existingCondition :: SetStatusCondition now rest newCondition

/-- The map `packageTypeToLifecycleType`, as the Go expression
`packageTypeToLifecycleType[packageType]`: an absent key gives the empty
lifecycle type. -/
def packageTypeToLifecycleType (packageType : String) : String :=
  if packageType = "bits" then "buildpack"
  else if packageType = "docker" then "docker"
  else ""

/-- The function `validateLifecycleTypes`: the message of the error, `none`
for nil. -/
def validateLifecycleTypes (cfApp : CFApp) (cfPackage : CFPackage) (cfBuild : CFBuild) :
    Option String :=
  if cfBuild.Spec.Lifecycle.Type_ ≠ packageTypeToLifecycleType cfPackage.Spec.Type_ then
    some ("cannot build " ++ cfPackage.Spec.Type_ ++ " package with " ++
      cfBuild.Spec.Lifecycle.Type_ ++ " build")
  else if cfApp.Spec.Lifecycle.Type_ ≠ packageTypeToLifecycleType cfPackage.Spec.Type_ then
    some ("cannot build " ++ cfPackage.Spec.Type_ ++ " package for " ++
      cfApp.Spec.Lifecycle.Type_ ++ " app")
  else none

/-- A call that `ReconcileResource` makes to a collaborator: a store read, the
cleaner, the owner-reference write, the delegate. -/
inductive ReconcilerCall
  | GetCFApp (ns name : String)
  | Clean (ns name : String)
  | SetControllerReference (owner : CFApp)
  | GetCFPackage (ns name : String)
  | ReconcileBuild (cfApp : CFApp) (cfPackage : CFPackage)
  deriving DecidableEq, Repr

/-- Whether the call is a store read. -/
def ReconcilerCall.isGet : ReconcilerCall → Bool
  | .GetCFApp _ _ => true
  | .GetCFPackage _ _ => true
  | _ => false

/-- Whether the call is a call of the cleaner. -/
def ReconcilerCall.isClean : ReconcilerCall → Bool
  | .Clean _ _ => true
  | _ => false

/-- Whether the call is an owner-reference write. -/
def ReconcilerCall.isSetControllerReference : ReconcilerCall → Bool
  | .SetControllerReference _ => true
  | _ => false

/-- Whether the call is a call of the delegate. -/
def ReconcilerCall.isReconcileBuild : ReconcilerCall → Bool
  | .ReconcileBuild _ _ => true
  | _ => false

/-- A logged call with the build as it is in memory when the call is made. -/
structure LoggedCall where
  call : ReconcilerCall
  cfBuild : CFBuild
  deriving DecidableEq, Repr

/-- The state of the object store with the log of the calls of one reconcile pass. -/
structure BuildWorld (σ : Type) where
  store : σ
  calls : List LoggedCall := []

/-- The build world after one more call has been logged. -/
def BuildWorld.logCall {σ : Type} (w : BuildWorld σ) (call : ReconcilerCall)
    (cfBuild : CFBuild) : BuildWorld σ :=
  { w with calls := w.calls ++ [{ call := call, cfBuild := cfBuild }] }

/-- The type `Reconciler`: what its fields provide.  The reads are those of
`k8sClient.Get`.  `SetControllerReference` stands for
`controllerutil.SetControllerReference` with the field `scheme`: it returns the
owner references of the controlled object afterwards, which is all it writes.
The delegate receives the build by pointer and returns it as it leaves it. -/
structure Reconciler (σ : Type) where
  GetCFApp : σ → String → String → Except K8sError CFApp
  GetCFPackage : σ → String → String → Except K8sError CFPackage
  Clean : σ → String → String → Option Err × σ
  SetControllerReference : CFApp → CFBuild → Except Err (List OwnerReference)
  ReconcileBuild : σ → CFBuild → CFApp → CFPackage → (Result × Option Err) × CFBuild × σ

/-- The build after the assignment
`cfBuild.Status.ObservedGeneration = cfBuild.Generation`. -/
def CFBuild.stampObservedGeneration (cfBuild : CFBuild) : CFBuild :=
  { cfBuild with Status := { cfBuild.Status with ObservedGeneration := cfBuild.Generation } }

/-- The method `Reconciler.ReconcileResource`: the result and the error (`none`
for nil), the build as the pass leaves it, and the world afterwards.  `now` is
the value of `time.Now()`. -/
def Reconciler.ReconcileResource {σ : Type} (r : Reconciler σ) (now : Time)
    (cfBuild : CFBuild) (w : BuildWorld σ) :
    (Result × Option Err) × CFBuild × BuildWorld σ :=
  if !TimeIsZero cfBuild.DeletionTimestamp then (({}, none), cfBuild, w)
  else
    let cfBuild : CFBuild := cfBuild.stampObservedGeneration
    let w := w.logCall (.GetCFApp cfBuild.Namespace cfBuild.Spec.AppRef.Name) cfBuild
    match r.GetCFApp w.store cfBuild.Namespace cfBuild.Spec.AppRef.Name with
    | .error err => (({}, some (.k8s err)), cfBuild, w)
    | .ok cfApp =>
      let w := w.logCall (.Clean cfBuild.Namespace cfApp.Name) cfBuild
      let w := { w with store := (r.Clean w.store cfBuild.Namespace cfApp.Name).2 }
      match FindStatusCondition cfBuild.Status.Conditions SucceededConditionType with
      | some _ => (({}, none), cfBuild, w)
      | none =>
        let w := w.logCall (.SetControllerReference cfApp) cfBuild
        match r.SetControllerReference cfApp cfBuild with
        | .error err => (({}, some err), cfBuild, w)
        | .ok ownerReferences =>
          let cfBuild : CFBuild := { cfBuild with OwnerReferences := ownerReferences }
          let w := w.logCall (.GetCFPackage cfBuild.Namespace cfBuild.Spec.PackageRef.Name) cfBuild
          match r.GetCFPackage w.store cfBuild.Namespace cfBuild.Spec.PackageRef.Name with
          | .error err => (({}, some (.k8s err)), cfBuild, w)
          | .ok cfPackage =>
            match validateLifecycleTypes cfApp cfPackage cfBuild with
            | some err =>
              let conditions := SetStatusCondition now cfBuild.Status.Conditions
                { Type_ := SucceededConditionType
                  Status := ConditionFalse
                  Reason := "BuildFailed"
                  Message := err
                  ObservedGeneration := cfBuild.Generation }
              let conditions := SetStatusCondition now conditions
                { Type_ := StagingConditionType
                  Status := ConditionFalse
                  Reason := "BuildNotRunning"
                  ObservedGeneration := cfBuild.Generation }
              (({}, none),
                { cfBuild with Status := { cfBuild.Status with Conditions := conditions } }, w)
            | none =>
              let w := w.logCall (.ReconcileBuild cfApp cfPackage) cfBuild
              match r.ReconcileBuild w.store cfBuild cfApp cfPackage with
              | (result, cfBuild, store) => (result, cfBuild, { w with store := store })

/-! ### A concrete store for worked examples of the build controller -/

/-- The apps and packages of the example store, and the apps the cleaner has
been called for. -/
structure ExampleBuildStore where
  apps : List CFApp := []
  packages : List CFPackage := []
  cleaned : List String := []
  deriving DecidableEq, Repr

/-- A read of one object of the example build store by namespace and name. -/
def ExampleBuildStore.read {α : Type} (objects : List α) (meta_ : α → ObjectMeta)
    (ns name : String) : Except K8sError α :=
  match objects.find? (fun o => (meta_ o).Namespace == ns && (meta_ o).Name == name) with
  | some o => .ok o
  | none => .error (.notFound name)

/-- An example reconciler: the cleaner records the app it is called for and
returns the given error, the owner reference names the app, and the delegate
marks the build as succeeded. -/
def exampleReconciler (cleanError : Option Err) : Reconciler ExampleBuildStore :=
  { GetCFApp := fun store ns name => ExampleBuildStore.read store.apps CFApp.toObjectMeta ns name
    GetCFPackage := fun store ns name =>
      ExampleBuildStore.read store.packages CFPackage.toObjectMeta ns name
    Clean := fun store _ name => (cleanError, { store with cleaned := store.cleaned ++ [name] })
    SetControllerReference := fun owner _ =>
      .ok [{ APIVersion := GroupVersionIdentifier, Kind := "CFApp", Name := owner.Name,
             Controller := some true, BlockOwnerDeletion := some true }]
    ReconcileBuild := fun store cfBuild _ _ =>
      (({}, none),
        { cfBuild with
          Status := { cfBuild.Status with
            Conditions := SetStatusCondition 1 cfBuild.Status.Conditions
              { Type_ := SucceededConditionType, Status := ConditionTrue, Reason := "Built" } } },
        store) }

/-- An example build store: a buildpack app with a docker package and a bits
package in "space-1". -/
def exampleBuildStore : ExampleBuildStore :=
  { apps := [{ Name := "app-1", Namespace := "space-1",
               Spec := { Lifecycle := { Type_ := "buildpack" } } }]
    packages := [{ Name := "pkg-docker", Namespace := "space-1", Spec := { Type_ := "docker" } },
                 { Name := "pkg-bits", Namespace := "space-1", Spec := { Type_ := "bits" } }] }

/-- An example build of generation 2, observed at generation 1: a buildpack
build of the given package of "app-1". -/
def exampleBuild (packageName : String) : CFBuild :=
  { Name := "build-1"
    Namespace := "space-1"
    Generation := 2
    Spec := { PackageRef := { Name := packageName }
              AppRef := { Name := "app-1" }
              Lifecycle := { Type_ := "buildpack" } }
    Status := { ObservedGeneration := 1 } }

/-- An example reconciler whose delegate hands the build back with
`status.observedGeneration` reset to 0 and otherwise as it received it. -/
def exampleResettingReconciler : Reconciler ExampleBuildStore :=
  { exampleReconciler none with
    ReconcileBuild := fun store cfBuild _ _ =>
      (({}, none), { cfBuild with Status := { cfBuild.Status with ObservedGeneration := 0 } },
        store) }

/-! ## The organization quotas plugin (`api/handlers/plugins/org_quotas.go`,
`api/presenter/org_quotas.go`) -/

/-- The constant `OrgQuotaPath`. -/
def OrgQuotaPath : String := "/v3/organization_quotas/{guid}"

/-- The type `presenter.OrgQuotaResponse`. -/
structure OrgQuotaResponse where
  GUID : String := ""
  Name : String := ""
  deriving DecidableEq, Repr

/-- The function `presenter.ForOrgQuota`. -/
def ForOrgQuota (record : StringMap) : OrgQuotaResponse :=
  { GUID := record.get "guid"
    Name := record.get "name" }

/-- An `http.Request` as the handler reads it: the URL parameters that the
router has bound from the request path. -/
structure Request where
  URLParams : StringMap := []
  deriving DecidableEq, Repr

/-- Modelled from the spec: `routing.URLParam` is declared in `api/routing`,
which is not part of the sources at hand (routing is an external collaborator
of the core).  It is the value bound to the named parameter of the route
pattern, the empty string when there is none. -/
def URLParam (r : Request) (key : String) : String :=
  r.URLParams.get key

/-- The type `routing.Response` of an organization quota response: the status
given to `routing.NewResponse` and the body given to `WithBody`. -/
structure OrgQuotaHandlerResponse where
  httpStatus : Nat
  body : OrgQuotaResponse
  deriving DecidableEq, Repr

/-- The handler type `OrgQuotas`; the request validator is not used by `get`. -/
structure OrgQuotas where
  serverURL : String := ""
  deriving DecidableEq, Repr

/-- The method `OrgQuotas.get`: the response and the error, `none` for nil. -/
def OrgQuotas.get (_h : OrgQuotas) (r : Request) : OrgQuotaHandlerResponse × Option Err :=
  let orgQuotaGUID := URLParam r "guid"
  let orgQuotaRecord : StringMap := [("name", "org-quota-name"), ("guid", orgQuotaGUID)]
  ({ httpStatus := StatusOK, body := ForOrgQuota orgQuotaRecord }, none)

/-! ## Properties -/

/-! ### Auxiliary lemmas -/

theorem isStatusConditionPresentAndEqual_iff_find (conditions : List Condition)
    (conditionType status : String) :
    IsStatusConditionPresentAndEqual conditions conditionType status = true ↔
      ∃ c, FindStatusCondition conditions conditionType = some c ∧ c.Status = status := by
  induction conditions with
  | nil => simp [IsStatusConditionPresentAndEqual, FindStatusCondition]
  | cons c rest ih =>
    by_cases hc : c.Type_ = conditionType
    · simp [IsStatusConditionPresentAndEqual, FindStatusCondition, hc]
    · simp [IsStatusConditionPresentAndEqual, FindStatusCondition, hc, ih]

theorem findStatusCondition_type (conditions : List Condition) (conditionType : String)
    (c : Condition) (h : FindStatusCondition conditions conditionType = some c) :
    c.Type_ = conditionType ∧ c ∈ conditions := by
  induction conditions with
  | nil => simp [FindStatusCondition] at h
  | cons d rest ih =>
    by_cases hd : d.Type_ = conditionType
    · simp [FindStatusCondition, hd] at h
      subst h
      exact ⟨hd, List.mem_cons_self _ _⟩
    · simp [FindStatusCondition, hd] at h
      exact ⟨(ih h).1, List.mem_cons_of_mem _ (ih h).2⟩

theorem jsonUnmarshal_of_jsonMarshal (parameters : Option GoMap) (raw : RawJSON)
    (h : jsonMarshal parameters = .ok raw) : ∃ decoded, jsonUnmarshal raw = .ok decoded := by
  cases parameters with
  | none =>
    simp [jsonMarshal] at h
    subst h
    exact ⟨none, rfl⟩
  | some m =>
    simp only [jsonMarshal] at h
    split at h
    · simp at h
    · next members _ =>
      simp at h
      subst h
      exact ⟨_, rfl⟩

theorem serviceBindingToRecord_ready (getLastUpdatedTime : ObjectMeta → Option Time)
    (binding : CFServiceBinding) (record : ServiceBindingRecord)
    (h : serviceBindingToRecord getLastUpdatedTime binding = .ok record) :
    record.Ready = isBindingReady binding := by
  simp only [serviceBindingToRecord] at h
  split at h
  · simp at h
  · simp at h
    subst h
    rfl

/-! ### Readiness and last operation of a record -/

/-- C1: `isBindingReady` is true exactly when `status.observedGeneration` equals
`generation` and the Ready condition has status True; the `Ready` field of every
record built by `serviceBindingToRecord` is that value; a binding whose observed
generation differs from its generation is not ready, whatever its conditions. -/
theorem isBindingReady_iff (getLastUpdatedTime : ObjectMeta → Option Time)
    (binding : CFServiceBinding) :
    (isBindingReady binding = true ↔
      binding.Status.ObservedGeneration = binding.Generation ∧
        ∃ c, FindStatusCondition binding.Status.Conditions StatusConditionReady = some c ∧
          c.Status = ConditionTrue) ∧
    (∀ record, serviceBindingToRecord getLastUpdatedTime binding = .ok record →
      (record.Ready = true ↔
        binding.Status.ObservedGeneration = binding.Generation ∧
          ∃ c, FindStatusCondition binding.Status.Conditions StatusConditionReady = some c ∧
            c.Status = ConditionTrue)) ∧
    (binding.Status.ObservedGeneration ≠ binding.Generation →
      isBindingReady binding = false) := by
  have key : isBindingReady binding = true ↔
      binding.Status.ObservedGeneration = binding.Generation ∧
        ∃ c, FindStatusCondition binding.Status.Conditions StatusConditionReady = some c ∧
          c.Status = ConditionTrue := by
    unfold isBindingReady IsStatusConditionTrue
    by_cases hg : binding.Generation = binding.Status.ObservedGeneration
    · simp [hg, isStatusConditionPresentAndEqual_iff_find]
    · have hg2 : ¬ binding.Status.ObservedGeneration = binding.Generation :=
        fun h => hg h.symm
      simp [hg, hg2]
  refine ⟨key, ?_, ?_⟩
  · intro record h
    rw [serviceBindingToRecord_ready getLastUpdatedTime binding record h]
    exact key
  · intro hne
    cases hr : isBindingReady binding with
    | false => rfl
    | true => exact absurd (key.mp hr).1 hne

/-- C1, at a binding that is observed at its generation 3 with a true Ready
condition, and at the same binding observed at generation 2. -/
theorem isBindingReady_iff_witness :
    isBindingReady
        { Generation := 3
          Status := { ObservedGeneration := 3
                      Conditions := [{ Type_ := "Ready", Status := "True" }] } } = true ∧
      isBindingReady
        { Generation := 3
          Status := { ObservedGeneration := 2
                      Conditions := [{ Type_ := "Ready", Status := "True" }] } } = false :=
  ⟨(isBindingReady_iff (fun _ => none) _).1.mpr
      ⟨rfl, { Type_ := "Ready", Status := "True" }, rfl, rfl⟩,
    (isBindingReady_iff (fun _ => none) _).2.2 (by decide)⟩

/-- C2: for a binding whose deletion timestamp is set, the last operation is of
type "delete", in state "in progress", created at the deletion timestamp,
whatever the status conditions of the binding are. -/
theorem serviceBindingRecordLastOperation_deleting
    (getLastUpdatedTime : ObjectMeta → Option Time) (binding : CFServiceBinding)
    (deletionTimestamp : Time) (h : binding.DeletionTimestamp = some deletionTimestamp) :
    serviceBindingRecordLastOperation getLastUpdatedTime binding =
      { Type_ := "delete"
        State := "in progress"
        CreatedAt := deletionTimestamp
        UpdatedAt := getLastUpdatedTime binding.toObjectMeta } := by
  simp [serviceBindingRecordLastOperation, h]

/-- C2, at a binding deleted at time 7 that has a true Ready condition and a
true BindingFailed condition. -/
theorem serviceBindingRecordLastOperation_deleting_witness :
    (serviceBindingRecordLastOperation (fun _ => none)
        { DeletionTimestamp := some 7
          Status := { Conditions := [{ Type_ := "Ready", Status := "True" },
                                     { Type_ := "BindingFailed", Status := "True" }] } }).Type_
      = "delete" :=
  congrArg ServiceBindingLastOperation.Type_
    (serviceBindingRecordLastOperation_deleting (fun _ => none) _ 7 rfl)

/-! ### The list filter -/

/-- C4: `matches` holds exactly when each of the three filter fields is empty
or contains the binding's value for it (service instance name, app name, value
of the plan-GUID label). -/
theorem matches_iff (m : ListServiceBindingsMessage) (serviceBinding : CFServiceBinding) :
    m.matches serviceBinding = true ↔
      (m.ServiceInstanceGUIDs = [] ∨
          serviceBinding.Spec.Service.Name ∈ m.ServiceInstanceGUIDs) ∧
        (m.AppGUIDs = [] ∨ serviceBinding.Spec.AppRef.Name ∈ m.AppGUIDs) ∧
        (m.PlanGUIDs = [] ∨ serviceBinding.Labels.get PlanGUIDLabelKey ∈ m.PlanGUIDs) := by
  simp [ListServiceBindingsMessage.matches, EmptyOrContains, and_assoc]

/-! ### Round trip of the create mapping -/

/-- C10: when the parameters of a create message can be marshalled, the message
has an object, the object has a record, and the record has the message's app,
service instance, space and name, with the object's generated name as GUID. -/
theorem create_roundtrip (getLastUpdatedTime : ObjectMeta → Option Time)
    (m : CreateServiceBindingMessage) (guid : String) (raw : RawJSON)
    (h : jsonMarshal m.Parameters = .ok raw) :
    ∃ obj record,
      m.toCFServiceBinding guid = .ok obj ∧
        serviceBindingToRecord getLastUpdatedTime obj = .ok record ∧
        obj.Name = guid ∧ record.GUID = obj.Name ∧
        record.AppGUID = m.AppGUID ∧
        record.ServiceInstanceGUID = m.ServiceInstanceGUID ∧
        record.SpaceGUID = m.SpaceGUID ∧
        record.Name = m.Name := by
  obtain ⟨decoded, hd⟩ := jsonUnmarshal_of_jsonMarshal _ _ h
  simp [CreateServiceBindingMessage.toCFServiceBinding, h, serviceBindingToRecord, hd]

/-- C10, at a message with a name and one parameter. -/
theorem create_roundtrip_witness :
    ∃ obj record,
      ({ Name := some "db", ServiceInstanceGUID := "si-1", AppGUID := "app-1",
         SpaceGUID := "space-1", Parameters := some [("plan", .json "1")] } :
          CreateServiceBindingMessage).toCFServiceBinding "guid-1" = .ok obj ∧
        serviceBindingToRecord (fun _ => none) obj = .ok record ∧
        obj.Name = "guid-1" ∧ record.GUID = obj.Name ∧
        record.AppGUID = "app-1" ∧
        record.ServiceInstanceGUID = "si-1" ∧
        record.SpaceGUID = "space-1" ∧
        record.Name = some "db" :=
  create_roundtrip (fun _ => none)
    { Name := some "db", ServiceInstanceGUID := "si-1", AppGUID := "app-1",
      SpaceGUID := "space-1", Parameters := some [("plan", .json "1")] }
    "guid-1" (.object [("plan", "1")]) rfl

/-! ### Creating a binding through the handler -/

/-- C5: when the app and the service instance of an app-type create request
both resolve and lie in different spaces, `createTypeApp` fails with an
unprocessable-entity error, the only repository calls it has made are the two
reads, and the state is the one the second read left: `CreateServiceBinding` is
not invoked. -/
theorem createTypeApp_different_spaces {τ : Type} (h : ServiceBinding τ)
    (authInfo : AuthInfo) (payload : ServiceBindingCreate) (w : HandlerWorld τ)
    (app : AppRecord) (serviceInstance : ServiceInstanceRecord) (s1 s2 : τ)
    (hApp : h.GetApp w.state authInfo payload.AppGUID = (.ok app, s1))
    (hInstance :
      h.GetServiceInstance s1 authInfo payload.ServiceInstanceGUID = (.ok serviceInstance, s2))
    (hSpaces : app.SpaceGUID ≠ serviceInstance.SpaceGUID) :
    h.createTypeApp authInfo payload w =
        (.error (.UnprocessableEntityError .nil
            "The service instance and the app are in different spaces"),
          { state := s2
            repoCalls := w.repoCalls ++
              [.GetApp payload.AppGUID, .GetServiceInstance payload.ServiceInstanceGUID] }) ∧
      ((h.createTypeApp authInfo payload w).2.repoCalls.filter
          RepoCall.isCreateServiceBinding =
        w.repoCalls.filter RepoCall.isCreateServiceBinding) := by
  have hres : h.createTypeApp authInfo payload w =
      (.error (.UnprocessableEntityError .nil
          "The service instance and the app are in different spaces"),
        { state := s2
          repoCalls := w.repoCalls ++
            [.GetApp payload.AppGUID, .GetServiceInstance payload.ServiceInstanceGUID] }) := by
    simp [ServiceBinding.createTypeApp, HandlerWorld.logCall, hApp, hInstance, hSpaces,
      LogAndReturn]
  refine ⟨hres, ?_⟩
  rw [hres]
  simp [RepoCall.isCreateServiceBinding]

/-- C5, at the example handler with an app in "space-a" and a service instance
in "space-b": no binding is counted as created. -/
theorem createTypeApp_different_spaces_witness :
    exampleHandler.createTypeApp {} { AppGUID := "app-1", ServiceInstanceGUID := "space-b" }
        { state := 0 } =
      (.error (.UnprocessableEntityError .nil
          "The service instance and the app are in different spaces"),
        { state := 0
          repoCalls := [.GetApp "app-1", .GetServiceInstance "space-b"] }) :=
  (createTypeApp_different_spaces exampleHandler {}
    { AppGUID := "app-1", ServiceInstanceGUID := "space-b" } { state := 0 }
    { GUID := "app-1", SpaceGUID := "space-a" } { GUID := "space-b", SpaceGUID := "space-b" }
    0 0 rfl rfl (by decide)).1

/-! ### Creating a binding in the repository -/

/-- C6, refuted as stated: in the example store the app resolves and the
service instance does not; `CreateServiceBinding` returns an error, yet `Create`
has been called and the binding is in the store. -/
theorem createServiceBinding_instance_read_follows_write :
    exampleClient.GetCFServiceInstance storeWithoutInstance "space-1" "si-1" =
        .error (.notFound "si-1") ∧
      (exampleRepo.CreateServiceBinding (fun _ => none) "guid-1" {} exampleCreateMessage
          { store := storeWithoutInstance }).1 =
        .error (.wrap "failed to get service instance" (.k8s (.notFound "si-1"))) ∧
      (exampleRepo.CreateServiceBinding (fun _ => none) "guid-1" {} exampleCreateMessage
          { store := storeWithoutInstance }).2.calls =
        [.GetCFApp "space-1" "app-1", .Create exampleCreatedBinding,
          .GetCFServiceInstance "space-1" "si-1"] ∧
      (exampleRepo.CreateServiceBinding (fun _ => none) "guid-1" {} exampleCreateMessage
          { store := storeWithoutInstance }).2.store.bindings = [exampleCreatedBinding] :=
  ⟨rfl, rfl, rfl, rfl⟩

/-- C6, amended: `CreateServiceBinding` reads the target app in the message's
space before it writes, and a failure of that read is returned as an error
with the store untouched and no `Create` call.  The target service instance is
read only after a successful `Create`: when the client cannot be built, the
message cannot be converted, the app read fails or `Create` fails, the
operation returns an error without reading the instance; when the read of the
instance fails after a successful `Create`, the operation returns an error and
the binding has already been written. -/
theorem createServiceBinding_validation_order {σ : Type}
    (getLastUpdatedTime : ObjectMeta → Option Time) (r : ServiceBindingRepo σ)
    (guid : String) (authInfo : AuthInfo) (message : CreateServiceBindingMessage)
    (w : World σ) :
    (∀ err, r.BuildClient authInfo = .error err →
      r.CreateServiceBinding getLastUpdatedTime guid authInfo message w =
        (.error (.wrap "failed to build user client" err), w)) ∧
    (∀ userClient err, r.BuildClient authInfo = .ok userClient →
      message.toCFServiceBinding guid = .error err →
      r.CreateServiceBinding getLastUpdatedTime guid authInfo message w =
        (.error (.wrap "failed to convert to CfServiceBinding" err), w)) ∧
    (∀ userClient obj, r.BuildClient authInfo = .ok userClient →
      message.toCFServiceBinding guid = .ok obj →
      obj.Namespace = message.SpaceGUID ∧
      (∀ err, userClient.GetCFApp w.store obj.Namespace obj.Spec.AppRef.Name = .error err →
        r.CreateServiceBinding getLastUpdatedTime guid authInfo message w =
          (.error (AsUnprocessableEntity (FromK8sError err ServiceBindingResourceType)
              "Unable to use app. Ensure that the app exists and you have access to it."),
            { store := w.store
              calls := w.calls ++ [.GetCFApp obj.Namespace obj.Spec.AppRef.Name] })) ∧
      (∀ app err s1,
        userClient.GetCFApp w.store obj.Namespace obj.Spec.AppRef.Name = .ok app →
        userClient.Create w.store obj = (.error err, s1) →
        r.CreateServiceBinding getLastUpdatedTime guid authInfo message w =
          (.error
              (match WebhookErrorToValidationError err with
                | some validationError =>
                  if validationError.1 = ServiceBindingErrorType then
                    .UniquenessError (.k8s err) validationError.2
                  else FromK8sError err ServiceBindingResourceType
                | none => FromK8sError err ServiceBindingResourceType),
            { store := s1
              calls := w.calls ++
                [.GetCFApp obj.Namespace obj.Spec.AppRef.Name, .Create obj] })) ∧
      (∀ app written s1 err,
        userClient.GetCFApp w.store obj.Namespace obj.Spec.AppRef.Name = .ok app →
        userClient.Create w.store obj = (.ok written, s1) →
        userClient.GetCFServiceInstance s1 written.Namespace written.Spec.Service.Name =
          .error err →
        r.CreateServiceBinding getLastUpdatedTime guid authInfo message w =
          (.error (.wrap "failed to get service instance" (.k8s err)),
            { store := s1
              calls := w.calls ++
                [.GetCFApp obj.Namespace obj.Spec.AppRef.Name, .Create obj,
                  .GetCFServiceInstance written.Namespace written.Spec.Service.Name] }))) := by
  refine ⟨?_, ?_, ?_⟩
  · intro err hClient
    simp [ServiceBindingRepo.CreateServiceBinding, hClient]
  · intro userClient err hClient hObj
    simp [ServiceBindingRepo.CreateServiceBinding, hClient, hObj]
  · intro userClient obj hClient hObj
    refine ⟨?_, ?_, ?_, ?_⟩
    · simp only [CreateServiceBindingMessage.toCFServiceBinding] at hObj
      split at hObj
      · simp at hObj
      · simp at hObj
        subst hObj
        rfl
    · intro err hApp
      simp [ServiceBindingRepo.CreateServiceBinding, hClient, hObj, World.logCall, hApp]
    · intro app err s1 hApp hCreate
      cases hWebhook : WebhookErrorToValidationError err with
      | none =>
        simp [ServiceBindingRepo.CreateServiceBinding, hClient, hObj, World.logCall, hApp,
          hCreate, hWebhook]
      | some validationError =>
        by_cases hType : validationError.1 = ServiceBindingErrorType
        · simp [ServiceBindingRepo.CreateServiceBinding, hClient, hObj, World.logCall, hApp,
            hCreate, hWebhook, hType]
        · simp [ServiceBindingRepo.CreateServiceBinding, hClient, hObj, World.logCall, hApp,
            hCreate, hWebhook, hType]
    · intro app written s1 err hApp hCreate hInstance
      simp [ServiceBindingRepo.CreateServiceBinding, hClient, hObj, World.logCall, hApp,
        hCreate, hInstance]

/-- C6 as amended, at the example store whose service instance is missing: the
error is returned after the `Create` call. -/
theorem createServiceBinding_validation_order_witness :
    exampleRepo.CreateServiceBinding (fun _ => none) "guid-1" {} exampleCreateMessage
        { store := storeWithoutInstance } =
      (.error (.wrap "failed to get service instance" (.k8s (.notFound "si-1"))),
        { store := { storeWithoutInstance with bindings := [exampleCreatedBinding] }
          calls := [.GetCFApp "space-1" "app-1", .Create exampleCreatedBinding,
            .GetCFServiceInstance "space-1" "si-1"] }) :=
  ((createServiceBinding_validation_order (fun _ => none) exampleRepo "guid-1" {}
    exampleCreateMessage { store := storeWithoutInstance }).2.2 exampleClient
    exampleCreatedBinding rfl rfl).2.2.2 { Name := "app-1", Namespace := "space-1" }
    exampleCreatedBinding
    { storeWithoutInstance with bindings := [exampleCreatedBinding] } (.notFound "si-1")
    rfl rfl rfl

/-- C7: after a successful write and a successful read of the service
instance, the awaiter is called for the Ready condition exactly when the
instance is user-provided; then an awaiter error is the operation's error and
the record is that of the object the awaiter returned; for any other instance
type the awaiter is not called and the record is that of the object as
written. -/
theorem createServiceBinding_await {σ : Type}
    (getLastUpdatedTime : ObjectMeta → Option Time) (r : ServiceBindingRepo σ)
    (guid : String) (authInfo : AuthInfo) (message : CreateServiceBindingMessage)
    (w : World σ) (userClient : Client σ) (obj written : CFServiceBinding) (app : CFApp)
    (s1 : σ) (cfServiceInstance : CFServiceInstance)
    (hClient : r.BuildClient authInfo = .ok userClient)
    (hObj : message.toCFServiceBinding guid = .ok obj)
    (hApp : userClient.GetCFApp w.store obj.Namespace obj.Spec.AppRef.Name = .ok app)
    (hCreate : userClient.Create w.store obj = (.ok written, s1))
    (hInstance :
      userClient.GetCFServiceInstance s1 written.Namespace written.Spec.Service.Name =
        .ok cfServiceInstance) :
    (cfServiceInstance.Spec.Type_ = UserProvidedType →
      (∀ err s2,
        r.AwaitCondition s1 userClient written StatusConditionReady = (.error err, s2) →
        r.CreateServiceBinding getLastUpdatedTime guid authInfo message w =
          (.error err,
            { store := s2
              calls := w.calls ++
                [.GetCFApp obj.Namespace obj.Spec.AppRef.Name, .Create obj,
                  .GetCFServiceInstance written.Namespace written.Spec.Service.Name,
                  .AwaitCondition written StatusConditionReady] })) ∧
      (∀ latest s2,
        r.AwaitCondition s1 userClient written StatusConditionReady = (.ok latest, s2) →
        r.CreateServiceBinding getLastUpdatedTime guid authInfo message w =
          (serviceBindingToRecord getLastUpdatedTime latest,
            { store := s2
              calls := w.calls ++
                [.GetCFApp obj.Namespace obj.Spec.AppRef.Name, .Create obj,
                  .GetCFServiceInstance written.Namespace written.Spec.Service.Name,
                  .AwaitCondition written StatusConditionReady] }))) ∧
    (cfServiceInstance.Spec.Type_ ≠ UserProvidedType →
      r.CreateServiceBinding getLastUpdatedTime guid authInfo message w =
        (serviceBindingToRecord getLastUpdatedTime written,
          { store := s1
            calls := w.calls ++
              [.GetCFApp obj.Namespace obj.Spec.AppRef.Name, .Create obj,
                .GetCFServiceInstance written.Namespace written.Spec.Service.Name] })) ∧
    (((r.CreateServiceBinding getLastUpdatedTime guid authInfo message w).2.calls.filter
          ClientCall.isAwaitCondition).length =
        (w.calls.filter ClientCall.isAwaitCondition).length +
          (if cfServiceInstance.Spec.Type_ = UserProvidedType then 1 else 0)) := by
  have hErr : cfServiceInstance.Spec.Type_ = UserProvidedType → ∀ err s2,
      r.AwaitCondition s1 userClient written StatusConditionReady = (.error err, s2) →
      r.CreateServiceBinding getLastUpdatedTime guid authInfo message w =
        (.error err,
          { store := s2
            calls := w.calls ++
              [.GetCFApp obj.Namespace obj.Spec.AppRef.Name, .Create obj,
                .GetCFServiceInstance written.Namespace written.Spec.Service.Name,
                .AwaitCondition written StatusConditionReady] }) := by
    intro hType err s2 hAwait
    simp [ServiceBindingRepo.CreateServiceBinding, hClient, hObj, World.logCall, hApp,
      hCreate, hInstance, hType, hAwait]
  have hOk : cfServiceInstance.Spec.Type_ = UserProvidedType → ∀ latest s2,
      r.AwaitCondition s1 userClient written StatusConditionReady = (.ok latest, s2) →
      r.CreateServiceBinding getLastUpdatedTime guid authInfo message w =
        (serviceBindingToRecord getLastUpdatedTime latest,
          { store := s2
            calls := w.calls ++
              [.GetCFApp obj.Namespace obj.Spec.AppRef.Name, .Create obj,
                .GetCFServiceInstance written.Namespace written.Spec.Service.Name,
                .AwaitCondition written StatusConditionReady] }) := by
    intro hType latest s2 hAwait
    simp [ServiceBindingRepo.CreateServiceBinding, hClient, hObj, World.logCall, hApp,
      hCreate, hInstance, hType, hAwait]
  have hOther : cfServiceInstance.Spec.Type_ ≠ UserProvidedType →
      r.CreateServiceBinding getLastUpdatedTime guid authInfo message w =
        (serviceBindingToRecord getLastUpdatedTime written,
          { store := s1
            calls := w.calls ++
              [.GetCFApp obj.Namespace obj.Spec.AppRef.Name, .Create obj,
                .GetCFServiceInstance written.Namespace written.Spec.Service.Name] }) := by
    intro hType
    simp [ServiceBindingRepo.CreateServiceBinding, hClient, hObj, World.logCall, hApp,
      hCreate, hInstance, hType]
  refine ⟨fun hType => ⟨hErr hType, hOk hType⟩, hOther, ?_⟩
  by_cases hType : cfServiceInstance.Spec.Type_ = UserProvidedType
  · rcases hAwait : r.AwaitCondition s1 userClient written StatusConditionReady with
      ⟨result, s2⟩
    cases result with
    | error err =>
      rw [hErr hType err s2 hAwait]
      simp [ClientCall.isAwaitCondition, hType]
    | ok latest =>
      rw [hOk hType latest s2 hAwait]
      simp [ClientCall.isAwaitCondition, hType]
  · rw [hOther hType]
    simp [ClientCall.isAwaitCondition, hType]

/-- C7, at the example store with a user-provided instance: the awaiter is
called and the record is ready, as the object the awaiter returned is. -/
theorem createServiceBinding_await_witness :
    (exampleRepo.CreateServiceBinding (fun _ => none) "guid-1" {} exampleCreateMessage
        { store := storeWithUserProvidedInstance }).2.calls =
      [.GetCFApp "space-1" "app-1", .Create exampleCreatedBinding,
        .GetCFServiceInstance "space-1" "si-1",
        .AwaitCondition exampleCreatedBinding StatusConditionReady] :=
  congrArg (fun result => result.2.calls)
    (((createServiceBinding_await (fun _ => none) exampleRepo "guid-1" {} exampleCreateMessage
      { store := storeWithUserProvidedInstance } exampleClient exampleCreatedBinding
      exampleCreatedBinding { Name := "app-1", Namespace := "space-1" }
      { storeWithUserProvidedInstance with bindings := [exampleCreatedBinding] }
      { Name := "si-1", Namespace := "space-1", Spec := { Type_ := UserProvidedType } }
      rfl rfl rfl rfl rfl).1 rfl).2 _ _ rfl)

/-! ### Authorization failures of get and delete -/

/-- C8, refuted as stated: the namespace of "b-1" resolves and the caller's
read of it is forbidden; the repository's `GetServiceBinding` returns a
`ForbiddenError`, which is not a `NotFoundError`. -/
theorem getServiceBinding_reports_forbidden :
    exampleRepo.NamespaceFor storeWithHiddenBinding "b-1" ServiceBindingResourceType =
        .ok "space-x" ∧
      exampleClient.GetCFServiceBinding storeWithHiddenBinding "space-x" "b-1" =
        .error (.forbidden "space-x") ∧
      (exampleRepo.GetServiceBinding (fun _ => none) {} "b-1"
          { store := storeWithHiddenBinding }).1 =
        .error (.ForbiddenError (.k8s (.forbidden "space-x")) "Service Binding") ∧
      (Err.ForbiddenError (.k8s (.forbidden "space-x")) "Service Binding").isNotFound = false :=
  ⟨rfl, rfl, rfl, rfl⟩

/-- C8, amended: when the namespace resolves and the store read fails, the
repository's `GetServiceBinding` returns the read error as `FromK8sError`
translates it, so a forbidden read is reported as Forbidden and an absent
binding as NotFound; the handler's `get` applies `ForbiddenAsNotFound` to the
repository's error and reports NotFound in both cases. -/
theorem getServiceBinding_forbidden_translation {σ : Type}
    (getLastUpdatedTime : ObjectMeta → Option Time) (r : ServiceBindingRepo σ)
    (authInfo : AuthInfo) (guid : String) (w : World σ) (ns : String)
    (userClient : Client σ) (newGuid : String)
    (GetApp : World σ → AuthInfo → String → Except Err AppRecord × World σ)
    (GetServiceInstance :
      World σ → AuthInfo → String → Except Err ServiceInstanceRecord × World σ)
    (repoCalls : List RepoCall)
    (hNs : r.NamespaceFor w.store guid ServiceBindingResourceType = .ok ns)
    (hClient : r.BuildClient authInfo = .ok userClient) :
    (∀ err, userClient.GetCFServiceBinding w.store ns guid = .error err →
      r.GetServiceBinding getLastUpdatedTime authInfo guid w =
        (.error (FromK8sError err ServiceBindingResourceType),
          { store := w.store, calls := w.calls ++ [.GetCFServiceBinding ns guid] })) ∧
    (∀ message, userClient.GetCFServiceBinding w.store ns guid = .error (.forbidden message) →
      (r.GetServiceBinding getLastUpdatedTime authInfo guid w).1 =
          .error (.ForbiddenError (.k8s (.forbidden message)) ServiceBindingResourceType) ∧
        ((NewServiceBinding getLastUpdatedTime r newGuid GetApp GetServiceInstance).get
            authInfo guid { state := w, repoCalls := repoCalls }).1 =
          .error (.NotFoundError (.k8s (.forbidden message)) ServiceBindingResourceType)) ∧
    (∀ message, userClient.GetCFServiceBinding w.store ns guid = .error (.notFound message) →
      (r.GetServiceBinding getLastUpdatedTime authInfo guid w).1 =
          .error (.NotFoundError (.k8s (.notFound message)) ServiceBindingResourceType) ∧
        ((NewServiceBinding getLastUpdatedTime r newGuid GetApp GetServiceInstance).get
            authInfo guid { state := w, repoCalls := repoCalls }).1 =
          .error (.NotFoundError (.k8s (.notFound message)) ServiceBindingResourceType)) := by
  have hRepo : ∀ err, userClient.GetCFServiceBinding w.store ns guid = .error err →
      r.GetServiceBinding getLastUpdatedTime authInfo guid w =
        (.error (FromK8sError err ServiceBindingResourceType),
          { store := w.store, calls := w.calls ++ [.GetCFServiceBinding ns guid] }) := by
    intro err hGet
    simp [ServiceBindingRepo.GetServiceBinding, hNs, hClient, World.logCall, hGet]
  refine ⟨hRepo, ?_, ?_⟩
  · intro message hGet
    simp [ServiceBinding.get, NewServiceBinding, HandlerWorld.logCall, hRepo _ hGet,
      FromK8sError, WebhookErrorToValidationError, ForbiddenAsNotFound, Err.asForbidden,
      LogAndReturn]
  · intro message hGet
    simp [ServiceBinding.get, NewServiceBinding, HandlerWorld.logCall, hRepo _ hGet,
      FromK8sError, WebhookErrorToValidationError, ForbiddenAsNotFound, Err.asForbidden,
      LogAndReturn]

/-- C8 as amended, at the example store with the hidden binding: the handler's
`get` reports NotFound where the repository reports Forbidden. -/
theorem getServiceBinding_forbidden_translation_witness :
    (exampleRepo.GetServiceBinding (fun _ => none) {} "b-1"
          { store := storeWithHiddenBinding }).1 =
        .error (.ForbiddenError (.k8s (.forbidden "space-x")) ServiceBindingResourceType) ∧
      ((NewServiceBinding (fun _ => none) exampleRepo "guid-1"
            (fun w _ guid => (.ok { GUID := guid }, w))
            (fun w _ guid => (.ok { GUID := guid }, w))).get
          {} "b-1" { state := { store := storeWithHiddenBinding }, repoCalls := [] }).1 =
        .error (.NotFoundError (.k8s (.forbidden "space-x")) ServiceBindingResourceType) :=
  (getServiceBinding_forbidden_translation (fun _ => none) exampleRepo {} "b-1"
    { store := storeWithHiddenBinding } "space-x" exampleClient "guid-1"
    (fun w _ guid => (.ok { GUID := guid }, w)) (fun w _ guid => (.ok { GUID := guid }, w))
    [] rfl rfl).2.1 "space-x" rfl

/-- C9, refuted as stated: the namespace of "b-1" resolves, the caller can read
the binding and is forbidden to delete it; `DeleteServiceBinding` returns a
`ForbiddenError`, which is not a `NotFoundError`. -/
theorem deleteServiceBinding_reports_forbidden :
    exampleRepo.NamespaceFor storeWithReadOnlyBinding "b-1" ServiceBindingResourceType =
        .ok "space-r" ∧
      exampleClient.Delete storeWithReadOnlyBinding { Name := "b-1", Namespace := "space-r" } =
        (some (.forbidden "space-r"), storeWithReadOnlyBinding) ∧
      (exampleRepo.DeleteServiceBinding {} "b-1" { store := storeWithReadOnlyBinding }).1 =
        some (.ForbiddenError (.k8s (.forbidden "space-r")) "Service Binding") ∧
      (Err.ForbiddenError (.k8s (.forbidden "space-r")) "Service Binding").isNotFound = false :=
  ⟨rfl, rfl, rfl, rfl⟩

/-- C9, amended: when the namespace resolves, a forbidden or not-found failure
of the store read of the binding yields NotFound and the delete is not issued;
after a successful read, a not-found failure of the store delete yields
NotFound and a forbidden failure of the store delete yields Forbidden. -/
theorem deleteServiceBinding_error_translation {σ : Type} (r : ServiceBindingRepo σ)
    (authInfo : AuthInfo) (guid : String) (w : World σ) (ns : String)
    (userClient : Client σ)
    (hClient : r.BuildClient authInfo = .ok userClient)
    (hNs : r.NamespaceFor w.store guid ServiceBindingResourceType = .ok ns) :
    (∀ message, userClient.GetCFServiceBinding w.store ns guid = .error (.forbidden message) →
      r.DeleteServiceBinding authInfo guid w =
        (some (.NotFoundError (.k8s (.forbidden message)) ServiceBindingResourceType),
          { store := w.store, calls := w.calls ++ [.GetCFServiceBinding ns guid] })) ∧
    (∀ message, userClient.GetCFServiceBinding w.store ns guid = .error (.notFound message) →
      r.DeleteServiceBinding authInfo guid w =
        (some (.NotFoundError (.k8s (.notFound message)) ServiceBindingResourceType),
          { store := w.store, calls := w.calls ++ [.GetCFServiceBinding ns guid] })) ∧
    (∀ binding message s1, userClient.GetCFServiceBinding w.store ns guid = .ok binding →
      userClient.Delete w.store binding = (some (.notFound message), s1) →
      r.DeleteServiceBinding authInfo guid w =
        (some (.NotFoundError (.k8s (.notFound message)) ServiceBindingResourceType),
          { store := s1
            calls := w.calls ++ [.GetCFServiceBinding ns guid, .Delete binding] })) ∧
    (∀ binding message s1, userClient.GetCFServiceBinding w.store ns guid = .ok binding →
      userClient.Delete w.store binding = (some (.forbidden message), s1) →
      r.DeleteServiceBinding authInfo guid w =
        (some (.ForbiddenError (.k8s (.forbidden message)) ServiceBindingResourceType),
          { store := s1
            calls := w.calls ++ [.GetCFServiceBinding ns guid, .Delete binding] })) := by
  refine ⟨?_, ?_, ?_, ?_⟩
  · intro message hGet
    simp [ServiceBindingRepo.DeleteServiceBinding, hClient, hNs, World.logCall, hGet,
      FromK8sError, WebhookErrorToValidationError, ForbiddenAsNotFound, Err.asForbidden]
  · intro message hGet
    simp [ServiceBindingRepo.DeleteServiceBinding, hClient, hNs, World.logCall, hGet,
      FromK8sError, WebhookErrorToValidationError, ForbiddenAsNotFound, Err.asForbidden]
  · intro binding message s1 hGet hDelete
    simp [ServiceBindingRepo.DeleteServiceBinding, hClient, hNs, World.logCall, hGet,
      hDelete, FromK8sError, WebhookErrorToValidationError]
  · intro binding message s1 hGet hDelete
    simp [ServiceBindingRepo.DeleteServiceBinding, hClient, hNs, World.logCall, hGet,
      hDelete, FromK8sError, WebhookErrorToValidationError]

/-- C9 as amended, at the example stores: a forbidden read is reported as
NotFound, a forbidden delete as Forbidden. -/
theorem deleteServiceBinding_error_translation_witness :
    (exampleRepo.DeleteServiceBinding {} "b-1" { store := storeWithHiddenBinding }).1 =
        some (.NotFoundError (.k8s (.forbidden "space-x")) ServiceBindingResourceType) ∧
      (exampleRepo.DeleteServiceBinding {} "b-1" { store := storeWithReadOnlyBinding }).1 =
        some (.ForbiddenError (.k8s (.forbidden "space-r")) ServiceBindingResourceType) :=
  ⟨congrArg Prod.fst
      ((deleteServiceBinding_error_translation exampleRepo {} "b-1"
        { store := storeWithHiddenBinding } "space-x" exampleClient rfl rfl).1 "space-x" rfl),
    congrArg Prod.fst
      ((deleteServiceBinding_error_translation exampleRepo {} "b-1"
        { store := storeWithReadOnlyBinding } "space-r" exampleClient rfl rfl).2.2.2
        { Name := "b-1", Namespace := "space-r" } "space-r" storeWithReadOnlyBinding rfl rfl)⟩

/-! ### Listing over the visible namespaces -/

theorem listServiceBindingsLoop_forbidden_or_ok {σ : Type} (userClient : Client σ)
    (labelSelector : Selector) (namespaces : List String)
    (serviceBindings : List CFServiceBinding) (w : World σ)
    (hLists : ∀ ns ∈ namespaces,
      (∃ message, userClient.ListCFServiceBindings w.store ns labelSelector =
          .error (.forbidden message)) ∨
        ∃ items, userClient.ListCFServiceBindings w.store ns labelSelector = .ok items) :
    listServiceBindingsLoop userClient labelSelector namespaces serviceBindings w =
      (.ok (serviceBindings ++ listedBindings userClient w.store labelSelector namespaces),
        { store := w.store
          calls := w.calls ++
            namespaces.map (fun ns => ClientCall.ListCFServiceBindings ns labelSelector) }) := by
  induction namespaces generalizing serviceBindings w with
  | nil => simp [listServiceBindingsLoop, listedBindings]
  | cons ns rest ih =>
    have hRest : ∀ ns' ∈ rest,
        (∃ message, userClient.ListCFServiceBindings w.store ns' labelSelector =
            .error (.forbidden message)) ∨
          ∃ items, userClient.ListCFServiceBindings w.store ns' labelSelector = .ok items :=
      fun ns' hMem => hLists ns' (List.mem_cons_of_mem _ hMem)
    rcases hLists ns (List.mem_cons_self _ _) with ⟨message, hForbidden⟩ | ⟨items, hItems⟩
    · simp only [listServiceBindingsLoop, World.logCall, hForbidden, K8sError.IsForbidden,
        if_true, listedBindings]
      rw [ih serviceBindings
        { store := w.store, calls := w.calls ++ [.ListCFServiceBindings ns labelSelector] } hRest]
      simp
    · simp only [listServiceBindingsLoop, World.logCall, hItems, listedBindings]
      rw [ih (serviceBindings ++ items)
        { store := w.store, calls := w.calls ++ [.ListCFServiceBindings ns labelSelector] } hRest]
      simp

theorem serviceBindingToRecord_of_parameters (getLastUpdatedTime : ObjectMeta → Option Time)
    (binding : CFServiceBinding)
    (h : ∀ raw, binding.Spec.Parameters = some raw → ∃ decoded, jsonUnmarshal raw = .ok decoded) :
    ∃ record, serviceBindingToRecord getLastUpdatedTime binding = .ok record := by
  cases hp : binding.Spec.Parameters with
  | none => simp [serviceBindingToRecord, hp]
  | some raw =>
    obtain ⟨decoded, hd⟩ := h raw hp
    simp [serviceBindingToRecord, hp, hd]

theorem serviceBindingsToRecords_ok (getLastUpdatedTime : ObjectMeta → Option Time)
    (serviceBindings : List CFServiceBinding) (serviceInstanceRecords : List ServiceBindingRecord)
    (h : ∀ b ∈ serviceBindings, ∃ record, serviceBindingToRecord getLastUpdatedTime b = .ok record) :
    ∃ records,
      serviceBindingsToRecords getLastUpdatedTime serviceBindings serviceInstanceRecords =
          .ok (serviceInstanceRecords ++ records) ∧
        records.map Except.ok =
          serviceBindings.map (serviceBindingToRecord getLastUpdatedTime) := by
  induction serviceBindings generalizing serviceInstanceRecords with
  | nil => exact ⟨[], by simp [serviceBindingsToRecords]⟩
  | cons b rest ih =>
    obtain ⟨record, hRecord⟩ := h b (List.mem_cons_self _ _)
    obtain ⟨records, hRecords, hMap⟩ :=
      ih (serviceInstanceRecords ++ [record]) (fun b' hMem => h b' (List.mem_cons_of_mem _ hMem))
    refine ⟨record :: records, ?_, ?_⟩
    · simp [serviceBindingsToRecords, hRecord, hRecords]
    · simp [hRecord, hMap]

theorem serviceBindingToRecord_error_form (getLastUpdatedTime : ObjectMeta → Option Time)
    (binding : CFServiceBinding) (err : Err)
    (h : serviceBindingToRecord getLastUpdatedTime binding = .error err) :
    ∃ message, err = .wrap "failed to unmarshal binding parameters" (.text message) := by
  cases hp : binding.Spec.Parameters with
  | none => simp [serviceBindingToRecord, hp] at h
  | some raw =>
    cases hu : jsonUnmarshal raw with
    | error message =>
      simp [serviceBindingToRecord, hp, hu] at h
      exact ⟨message, h.symm⟩
    | ok decoded => simp [serviceBindingToRecord, hp, hu] at h

theorem serviceBindingsToRecords_error (getLastUpdatedTime : ObjectMeta → Option Time)
    (serviceBindings : List CFServiceBinding) (serviceInstanceRecords : List ServiceBindingRecord)
    (h : ∃ b ∈ serviceBindings, ∃ raw message,
      b.Spec.Parameters = some raw ∧ jsonUnmarshal raw = .error message) :
    ∃ message,
      serviceBindingsToRecords getLastUpdatedTime serviceBindings serviceInstanceRecords =
        .error (.wrap "failed to unmarshal binding parameters" (.text message)) := by
  induction serviceBindings generalizing serviceInstanceRecords with
  | nil =>
    obtain ⟨b, hMem, _⟩ := h
    simp at hMem
  | cons first rest ih =>
    cases hFirst : serviceBindingToRecord getLastUpdatedTime first with
    | error err =>
      obtain ⟨message, hForm⟩ :=
        serviceBindingToRecord_error_form getLastUpdatedTime first err hFirst
      subst hForm
      exact ⟨message, by simp [serviceBindingsToRecords, hFirst]⟩
    | ok record =>
      obtain ⟨b, hMem, raw, message, hRaw, hUnmarshal⟩ := h
      have hTail : b ∈ rest := by
        rcases List.mem_cons.mp hMem with hEq | hIn
        · subst hEq
          simp [serviceBindingToRecord, hRaw, hUnmarshal] at hFirst
        · exact hIn
      obtain ⟨message', hRest⟩ :=
        ih (serviceInstanceRecords ++ [record]) ⟨b, hTail, raw, message, hRaw, hUnmarshal⟩
      exact ⟨message', by simp [serviceBindingsToRecords, hFirst, hRest]⟩

/-- C3, refuted as stated: the list is forbidden in "space-a" and succeeds in
"space-b", whose binding has parameters that do not decode into a map;
`ListServiceBindings` returns an error. -/
theorem listServiceBindings_record_error :
    exampleRepo.authorizedSpaceNamespaces storeWithArrayParameters {} =
        .ok ["space-a", "space-b"] ∧
      exampleClient.ListCFServiceBindings storeWithArrayParameters "space-a" "" =
        .error (.forbidden "space-a") ∧
      exampleClient.ListCFServiceBindings storeWithArrayParameters "space-b" "" =
        .ok [{ Name := "b-1", Namespace := "space-b",
               Spec := { Parameters := some arrayParameters } }] ∧
      (exampleRepo.ListServiceBindings (fun _ => none) (fun selector => .ok selector) {} {}
          { store := storeWithArrayParameters }).1 =
        .error (.wrap "failed to unmarshal binding parameters"
          (.text
            "json: cannot unmarshal array into Go value of type map[string]interface \x7b\x7d")) :=
  ⟨rfl, rfl, rfl, rfl⟩

/-- C3, amended: when the client is built, the label selector parses and the
list of every visible namespace either is Forbidden or succeeds,
`ListServiceBindings` leaves the store as it is and converts the listed
bindings that satisfy the filter, and only those.  When the parameters of each
of them decode, it returns no error and exactly the records of the bindings of
the non-forbidden namespaces that satisfy the filter, in namespace order.  When
the parameters of one of them do not decode, it returns an unmarshal error. -/
theorem listServiceBindings_skips_forbidden {σ : Type}
    (getLastUpdatedTime : ObjectMeta → Option Time)
    (labelsParse : String → Except String Selector) (r : ServiceBindingRepo σ)
    (authInfo : AuthInfo) (message : ListServiceBindingsMessage) (w : World σ)
    (userClient : Client σ) (namespaces : List String) (labelSelector : Selector)
    (hClient : r.BuildClient authInfo = .ok userClient)
    (hNamespaces : r.authorizedSpaceNamespaces w.store authInfo = .ok namespaces)
    (hSelector : labelsParse message.LabelSelector = .ok labelSelector)
    (hLists : ∀ ns ∈ namespaces,
      (∃ text, userClient.ListCFServiceBindings w.store ns labelSelector =
          .error (.forbidden text)) ∨
        ∃ items, userClient.ListCFServiceBindings w.store ns labelSelector = .ok items) :
    ((∀ b ∈ listedBindings userClient w.store labelSelector namespaces,
        message.matches b = true →
          ∀ raw, b.Spec.Parameters = some raw → ∃ decoded, jsonUnmarshal raw = .ok decoded) →
      ∃ records,
        r.ListServiceBindings getLastUpdatedTime labelsParse authInfo message w =
            (.ok records,
              { store := w.store
                calls := w.calls ++
                  namespaces.map (fun ns => ClientCall.ListCFServiceBindings ns labelSelector) }) ∧
          records.map Except.ok =
            ((listedBindings userClient w.store labelSelector namespaces).filter
              message.matches).map (serviceBindingToRecord getLastUpdatedTime)) ∧
    ((∃ b ∈ listedBindings userClient w.store labelSelector namespaces,
        message.matches b = true ∧
          ∃ raw text, b.Spec.Parameters = some raw ∧ jsonUnmarshal raw = .error text) →
      ∃ text,
        r.ListServiceBindings getLastUpdatedTime labelsParse authInfo message w =
          (.error (.wrap "failed to unmarshal binding parameters" (.text text)),
            { store := w.store
              calls := w.calls ++
                namespaces.map (fun ns => ClientCall.ListCFServiceBindings ns labelSelector) })) := by
  refine ⟨?_, ?_⟩
  · intro hParameters
    have hAll : ∀ b ∈ (listedBindings userClient w.store labelSelector namespaces).filter
        message.matches, ∃ record, serviceBindingToRecord getLastUpdatedTime b = .ok record := by
      intro b hMem
      rw [List.mem_filter] at hMem
      exact serviceBindingToRecord_of_parameters getLastUpdatedTime b
        (hParameters b hMem.1 hMem.2)
    obtain ⟨records, hRecords, hMap⟩ :=
      serviceBindingsToRecords_ok getLastUpdatedTime _ [] hAll
    refine ⟨records, ?_, hMap⟩
    simp only [ServiceBindingRepo.ListServiceBindings, hClient, hNamespaces, hSelector,
      listServiceBindingsLoop_forbidden_or_ok userClient labelSelector namespaces [] w hLists,
      List.nil_append, hRecords]
  · rintro ⟨b, hMem, hMatches, raw, text, hRaw, hUnmarshal⟩
    obtain ⟨text', hError⟩ :=
      serviceBindingsToRecords_error getLastUpdatedTime
        ((listedBindings userClient w.store labelSelector namespaces).filter message.matches) []
        ⟨b, List.mem_filter.mpr ⟨hMem, hMatches⟩, raw, text, hRaw, hUnmarshal⟩
    refine ⟨text', ?_⟩
    simp only [ServiceBindingRepo.ListServiceBindings, hClient, hNamespaces, hSelector,
      listServiceBindingsLoop_forbidden_or_ok userClient labelSelector namespaces [] w hLists,
      List.nil_append, hError]

/-- C3 as amended, at the example store with a forbidden "space-a" and two
bindings in "space-b", filtered by app "app-1": the one matching binding of
"space-b" is returned and the binding of "space-a" is not. -/
theorem listServiceBindings_skips_forbidden_witness :
    ∃ records,
      exampleRepo.ListServiceBindings (fun _ => none) (fun selector => .ok selector) {}
          { AppGUIDs := ["app-1"] } { store := storeWithTwoSpaces } =
          (.ok records,
            { store := storeWithTwoSpaces
              calls := [.ListCFServiceBindings "space-a" "",
                .ListCFServiceBindings "space-b" ""] }) ∧
        records.map Except.ok =
          [serviceBindingToRecord (fun _ => none)
            { Name := "b-1", Namespace := "space-b", Spec := { AppRef := { Name := "app-1" } } }] :=
  (listServiceBindings_skips_forbidden (fun _ => none) (fun selector => .ok selector)
    exampleRepo {} { AppGUIDs := ["app-1"] } { store := storeWithTwoSpaces } exampleClient
    ["space-a", "space-b"] "" rfl rfl rfl
    (by
      intro ns hMem
      simp only [List.mem_cons, List.mem_singleton, List.not_mem_nil, or_false] at hMem
      rcases hMem with rfl | rfl
      · exact Or.inl ⟨"space-a", rfl⟩
      · exact Or.inr ⟨_, rfl⟩)).1
    (by
      intro b hMem _ raw hRaw
      have hListed : listedBindings exampleClient storeWithTwoSpaces "" ["space-a", "space-b"] =
          [{ Name := "b-1", Namespace := "space-b", Spec := { AppRef := { Name := "app-1" } } },
            { Name := "b-2", Namespace := "space-b", Spec := { AppRef := { Name := "app-2" } } }] :=
        rfl
      change b ∈ listedBindings exampleClient storeWithTwoSpaces "" ["space-a", "space-b"] at hMem
      rw [hListed] at hMem
      simp only [List.mem_cons, List.mem_singleton, List.not_mem_nil, or_false] at hMem
      rcases hMem with rfl | rfl <;> simp at hRaw)

/-! ### States of the last operation -/

/-- C19: when the last operation of a binding is in state "succeeded", the
Ready condition of the binding has status True, the operation is of type
"create" and the binding has no deletion timestamp. -/
theorem serviceBindingRecordLastOperation_succeeded
    (getLastUpdatedTime : ObjectMeta → Option Time) (binding : CFServiceBinding)
    (h : (serviceBindingRecordLastOperation getLastUpdatedTime binding).State = "succeeded") :
    (∃ c, FindStatusCondition binding.Status.Conditions StatusConditionReady = some c ∧
        c.Status = ConditionTrue) ∧
      (serviceBindingRecordLastOperation getLastUpdatedTime binding).Type_ = "create" ∧
      binding.DeletionTimestamp = none := by
  unfold serviceBindingRecordLastOperation at h ⊢
  cases hd : binding.DeletionTimestamp with
  | some deletionTimestamp => simp [hd] at h
  | none =>
    cases hr : FindStatusCondition binding.Status.Conditions StatusConditionReady with
    | none => simp [hd, hr] at h
    | some readyCondition =>
      by_cases hTrue : readyCondition.Status = ConditionTrue
      · simp [hTrue]
      · by_cases hFailed :
            IsStatusConditionTrue binding.Status.Conditions BindingFailedCondition = true
        · simp [hd, hr, hTrue, hFailed] at h
        · simp [hd, hr, hTrue, hFailed] at h

/-- C19, at a binding whose Ready condition is True. -/
theorem serviceBindingRecordLastOperation_succeeded_witness :
    (∃ c, FindStatusCondition [{ Type_ := "Ready", Status := "True" }] StatusConditionReady =
          some c ∧ c.Status = ConditionTrue) ∧
      (serviceBindingRecordLastOperation (fun _ => none)
        { Status := { Conditions := [{ Type_ := "Ready", Status := "True" }] } }).Type_ =
        "create" ∧
      (none : Option Time) = none :=
  serviceBindingRecordLastOperation_succeeded (fun _ => none)
    { Status := { Conditions := [{ Type_ := "Ready", Status := "True" }] } } rfl

/-- C20: when the last operation of a binding is in state "failed", the
BindingFailed condition of the binding has status True, its Ready condition is
present with a status other than True, and the binding has no deletion
timestamp. -/
theorem serviceBindingRecordLastOperation_failed
    (getLastUpdatedTime : ObjectMeta → Option Time) (binding : CFServiceBinding)
    (h : (serviceBindingRecordLastOperation getLastUpdatedTime binding).State = "failed") :
    (∃ c, FindStatusCondition binding.Status.Conditions BindingFailedCondition = some c ∧
        c.Status = ConditionTrue) ∧
      (∃ readyCondition,
        FindStatusCondition binding.Status.Conditions StatusConditionReady =
            some readyCondition ∧
          readyCondition.Status ≠ ConditionTrue) ∧
      binding.DeletionTimestamp = none := by
  unfold serviceBindingRecordLastOperation at h
  cases hd : binding.DeletionTimestamp with
  | some deletionTimestamp => simp [hd] at h
  | none =>
    cases hr : FindStatusCondition binding.Status.Conditions StatusConditionReady with
    | none => simp [hd, hr] at h
    | some readyCondition =>
      by_cases hTrue : readyCondition.Status = ConditionTrue
      · simp [hd, hr, hTrue] at h
      · by_cases hFailed :
            IsStatusConditionTrue binding.Status.Conditions BindingFailedCondition = true
        · refine ⟨?_, ⟨readyCondition, rfl, hTrue⟩, rfl⟩
          exact (isStatusConditionPresentAndEqual_iff_find _ _ _).mp hFailed
        · simp [hd, hr, hTrue, hFailed] at h

/-- C20, at a binding whose Ready condition is False and whose BindingFailed
condition is True. -/
theorem serviceBindingRecordLastOperation_failed_witness :
    (∃ c, FindStatusCondition
          [{ Type_ := "Ready", Status := "False" }, { Type_ := "BindingFailed", Status := "True" }]
          BindingFailedCondition = some c ∧ c.Status = ConditionTrue) ∧
      (∃ readyCondition,
        FindStatusCondition
            [{ Type_ := "Ready", Status := "False" },
              { Type_ := "BindingFailed", Status := "True" }]
            StatusConditionReady = some readyCondition ∧
          readyCondition.Status ≠ ConditionTrue) ∧
      (none : Option Time) = none :=
  serviceBindingRecordLastOperation_failed (fun _ => none)
    { Status := { Conditions := [{ Type_ := "Ready", Status := "False" },
                                 { Type_ := "BindingFailed", Status := "True" }] } } rfl

/-! ### Validation of the lifecycle types of a build -/

/-- C12: `validateLifecycleTypes` returns no error exactly when the lifecycle
types of the build and of the app both equal the lifecycle type mapped from the
package type ("bits" to "buildpack", "docker" to "docker", any other package
type to the empty type); then the two lifecycle types are equal; and when both
differ from the mapped type the error is the one about the build. -/
theorem validateLifecycleTypes_none_iff (cfApp : CFApp) (cfPackage : CFPackage)
    (cfBuild : CFBuild) :
    (validateLifecycleTypes cfApp cfPackage cfBuild = none ↔
      cfBuild.Spec.Lifecycle.Type_ = packageTypeToLifecycleType cfPackage.Spec.Type_ ∧
        cfApp.Spec.Lifecycle.Type_ = packageTypeToLifecycleType cfPackage.Spec.Type_) ∧
    (packageTypeToLifecycleType "bits" = "buildpack" ∧
      packageTypeToLifecycleType "docker" = "docker" ∧
      ∀ packageType, packageType ≠ "bits" → packageType ≠ "docker" →
        packageTypeToLifecycleType packageType = "") ∧
    (validateLifecycleTypes cfApp cfPackage cfBuild = none →
      cfBuild.Spec.Lifecycle.Type_ = cfApp.Spec.Lifecycle.Type_) ∧
    (cfBuild.Spec.Lifecycle.Type_ ≠ packageTypeToLifecycleType cfPackage.Spec.Type_ →
      validateLifecycleTypes cfApp cfPackage cfBuild =
        some ("cannot build " ++ cfPackage.Spec.Type_ ++ " package with " ++
          cfBuild.Spec.Lifecycle.Type_ ++ " build")) := by
  have key : validateLifecycleTypes cfApp cfPackage cfBuild = none ↔
      cfBuild.Spec.Lifecycle.Type_ = packageTypeToLifecycleType cfPackage.Spec.Type_ ∧
        cfApp.Spec.Lifecycle.Type_ = packageTypeToLifecycleType cfPackage.Spec.Type_ := by
    unfold validateLifecycleTypes
    by_cases hb : cfBuild.Spec.Lifecycle.Type_ = packageTypeToLifecycleType cfPackage.Spec.Type_
    · by_cases ha : cfApp.Spec.Lifecycle.Type_ = packageTypeToLifecycleType cfPackage.Spec.Type_
      · simp [hb, ha]
      · simp [hb, ha]
    · simp [hb]
  refine ⟨key, ⟨rfl, rfl, ?_⟩, ?_, ?_⟩
  · intro packageType hBits hDocker
    simp [packageTypeToLifecycleType, hBits, hDocker]
  · intro h
    rw [(key.mp h).1, (key.mp h).2]
  · intro hb
    simp [validateLifecycleTypes, hb]

/-- C12, at a buildpack build of a docker package for a buildpack app: both checks
fail and the error is the one about the build. -/
theorem validateLifecycleTypes_none_iff_witness :
    validateLifecycleTypes { Spec := { Lifecycle := { Type_ := "buildpack" } } }
        { Spec := { Type_ := "docker" } }
        { Spec := { Lifecycle := { Type_ := "buildpack" } } } =
      some "cannot build docker package with buildpack build" :=
  (validateLifecycleTypes_none_iff { Spec := { Lifecycle := { Type_ := "buildpack" } } }
    { Spec := { Type_ := "docker" } }
    { Spec := { Lifecycle := { Type_ := "buildpack" } } }).2.2.2 (by decide)

/-! ### Reconciliation of a build -/

theorem findStatusCondition_setStatusCondition_same (now : Time) (conditions : List Condition)
    (newCondition : Condition) :
    ∃ c, FindStatusCondition (SetStatusCondition now conditions newCondition)
          newCondition.Type_ = some c ∧
      c.Type_ = newCondition.Type_ ∧ c.Status = newCondition.Status ∧
      c.Reason = newCondition.Reason ∧ c.Message = newCondition.Message ∧
      c.ObservedGeneration = newCondition.ObservedGeneration := by
  induction conditions with
  | nil =>
    by_cases hz : newCondition.LastTransitionTime.IsZero = true
    · simp [SetStatusCondition, FindStatusCondition, hz]
    · simp [SetStatusCondition, FindStatusCondition, hz]
  | cons existingCondition rest ih =>
    by_cases hc : existingCondition.Type_ = newCondition.Type_
    · simp [SetStatusCondition, FindStatusCondition, hc]
    · simp [SetStatusCondition, FindStatusCondition, hc, ih]

theorem findStatusCondition_setStatusCondition_other (now : Time) (conditions : List Condition)
    (newCondition : Condition) (conditionType : String)
    (h : newCondition.Type_ ≠ conditionType) :
    FindStatusCondition (SetStatusCondition now conditions newCondition) conditionType =
      FindStatusCondition conditions conditionType := by
  induction conditions with
  | nil =>
    by_cases hz : newCondition.LastTransitionTime.IsZero = true
    · simp [SetStatusCondition, FindStatusCondition, hz, h]
    · simp [SetStatusCondition, FindStatusCondition, hz, h]
  | cons existingCondition rest ih =>
    by_cases hc : existingCondition.Type_ = newCondition.Type_
    · have hne : existingCondition.Type_ ≠ conditionType := by rw [hc]; exact h
      simp [SetStatusCondition, FindStatusCondition, hc, h, hne]
    · by_cases he : existingCondition.Type_ = conditionType
      · have hne : ¬ conditionType = newCondition.Type_ := fun h' => h h'.symm
        simp [SetStatusCondition, FindStatusCondition, he, hne]
      · simp [SetStatusCondition, FindStatusCondition, hc, he, ih]

theorem reconcileResource_completed {σ : Type} (r : Reconciler σ) (now : Time)
    (cfBuild : CFBuild) (w : BuildWorld σ) (succeededStatus : Condition) (cfApp : CFApp)
    (hNotDeleting : TimeIsZero cfBuild.DeletionTimestamp = true)
    (hSucceeded : FindStatusCondition cfBuild.Status.Conditions SucceededConditionType =
      some succeededStatus)
    (hApp : r.GetCFApp w.store cfBuild.Namespace cfBuild.Spec.AppRef.Name = .ok cfApp) :
    r.ReconcileResource now cfBuild w =
      (({}, none), cfBuild.stampObservedGeneration,
        { store := (r.Clean w.store cfBuild.Namespace cfApp.Name).2
          calls := w.calls ++
            [{ call := .GetCFApp cfBuild.Namespace cfBuild.Spec.AppRef.Name
               cfBuild := cfBuild.stampObservedGeneration },
              { call := .Clean cfBuild.Namespace cfApp.Name
                cfBuild := cfBuild.stampObservedGeneration }] }) := by
  simp [Reconciler.ReconcileResource, hNotDeleting, CFBuild.stampObservedGeneration,
    BuildWorld.logCall, hApp, hSucceeded]

theorem reconcileResource_app_error {σ : Type} (r : Reconciler σ) (now : Time)
    (cfBuild : CFBuild) (w : BuildWorld σ) (err : K8sError)
    (hNotDeleting : TimeIsZero cfBuild.DeletionTimestamp = true)
    (hApp : r.GetCFApp w.store cfBuild.Namespace cfBuild.Spec.AppRef.Name = .error err) :
    r.ReconcileResource now cfBuild w =
      (({}, some (.k8s err)), cfBuild.stampObservedGeneration,
        { store := w.store
          calls := w.calls ++
            [{ call := .GetCFApp cfBuild.Namespace cfBuild.Spec.AppRef.Name
               cfBuild := cfBuild.stampObservedGeneration }] }) := by
  simp [Reconciler.ReconcileResource, hNotDeleting, CFBuild.stampObservedGeneration,
    BuildWorld.logCall, hApp]

/-- C14: for a build whose deletion timestamp is set (a time other than the
zero time, which stands for "unset"), `ReconcileResource` returns the empty
result and no error, makes no call at all (no store read, no cleaner, no
delegate) and leaves the build and the store as they are. -/
theorem reconcileResource_deleting {σ : Type} (r : Reconciler σ) (now : Time)
    (cfBuild : CFBuild) (w : BuildWorld σ) (deletionTimestamp : Time)
    (hSet : cfBuild.DeletionTimestamp = some deletionTimestamp)
    (hTime : deletionTimestamp.IsZero = false) :
    r.ReconcileResource now cfBuild w = (({}, none), cfBuild, w) := by
  simp [Reconciler.ReconcileResource, hSet, TimeIsZero, hTime]

/-- C14, at the example build with deletion timestamp 3: no call is logged and
the cleaner has recorded nothing. -/
theorem reconcileResource_deleting_witness :
    (exampleReconciler none).ReconcileResource 5
        { exampleBuild "pkg-bits" with DeletionTimestamp := some 3 }
        { store := exampleBuildStore } =
      (({}, none), { exampleBuild "pkg-bits" with DeletionTimestamp := some 3 },
        { store := exampleBuildStore }) :=
  reconcileResource_deleting (exampleReconciler none) 5
    { exampleBuild "pkg-bits" with DeletionTimestamp := some 3 }
    { store := exampleBuildStore } 3 rfl rfl

/-- C13: for a build without deletion timestamp that bears a Succeeded
condition of status True, `ReconcileResource` calls neither the delegate nor
the owner-reference write, and leaves the build as it was except for
`status.observedGeneration`, which it sets to the generation; its conditions
and owner references are unchanged. -/
theorem reconcileResource_idempotent {σ : Type} (r : Reconciler σ) (now : Time)
    (cfBuild : CFBuild) (w : BuildWorld σ)
    (hNotDeleting : TimeIsZero cfBuild.DeletionTimestamp = true)
    (hSucceededTrue : ∃ succeededStatus,
      FindStatusCondition cfBuild.Status.Conditions SucceededConditionType =
          some succeededStatus ∧
        succeededStatus.Status = ConditionTrue) :
    (r.ReconcileResource now cfBuild w).2.1 = cfBuild.stampObservedGeneration ∧
      (r.ReconcileResource now cfBuild w).2.1.Status.Conditions = cfBuild.Status.Conditions ∧
      (r.ReconcileResource now cfBuild w).2.1.OwnerReferences = cfBuild.OwnerReferences ∧
      ((r.ReconcileResource now cfBuild w).2.2.calls.filter
          (fun lc => lc.call.isReconcileBuild || lc.call.isSetControllerReference) =
        w.calls.filter
          (fun lc => lc.call.isReconcileBuild || lc.call.isSetControllerReference)) ∧
      (∀ cfApp, r.GetCFApp w.store cfBuild.Namespace cfBuild.Spec.AppRef.Name = .ok cfApp →
        (r.ReconcileResource now cfBuild w).1 = ({}, none)) := by
  obtain ⟨succeededStatus, hSucceeded, _⟩ := hSucceededTrue
  cases hApp : r.GetCFApp w.store cfBuild.Namespace cfBuild.Spec.AppRef.Name with
  | error err =>
    rw [reconcileResource_app_error r now cfBuild w err hNotDeleting hApp]
    simp [CFBuild.stampObservedGeneration, ReconcilerCall.isReconcileBuild,
      ReconcilerCall.isSetControllerReference]
  | ok cfApp =>
    rw [reconcileResource_completed r now cfBuild w succeededStatus cfApp hNotDeleting
      hSucceeded hApp]
    simp [CFBuild.stampObservedGeneration, ReconcilerCall.isReconcileBuild,
      ReconcilerCall.isSetControllerReference]

/-- C13, at the example build once it has succeeded: a second pass returns the
build with its conditions as they were. -/
theorem reconcileResource_idempotent_witness :
    ((exampleReconciler none).ReconcileResource 5
        { exampleBuild "pkg-bits" with
          Status := { Conditions := [{ Type_ := "Succeeded", Status := "True" }]
                      ObservedGeneration := 1 } }
        { store := exampleBuildStore }).2.1.Status.Conditions =
      [{ Type_ := "Succeeded", Status := "True" }] :=
  (reconcileResource_idempotent (exampleReconciler none) 5
    { exampleBuild "pkg-bits" with
      Status := { Conditions := [{ Type_ := "Succeeded", Status := "True" }]
                  ObservedGeneration := 1 } }
    { store := exampleBuildStore } rfl
    ⟨{ Type_ := "Succeeded", Status := "True" }, rfl, rfl⟩).2.1

theorem validateLifecycleTypes_of_spec (cfApp : CFApp) (cfPackage : CFPackage)
    (cfBuild other : CFBuild) (h : other.Spec = cfBuild.Spec) :
    validateLifecycleTypes cfApp cfPackage other =
      validateLifecycleTypes cfApp cfPackage cfBuild := by
  simp [validateLifecycleTypes, h]

theorem reconcileResource_owner_error {σ : Type} (r : Reconciler σ) (now : Time)
    (cfBuild : CFBuild) (w : BuildWorld σ) (cfApp : CFApp) (err : Err)
    (hNotDeleting : TimeIsZero cfBuild.DeletionTimestamp = true)
    (hApp : r.GetCFApp w.store cfBuild.Namespace cfBuild.Spec.AppRef.Name = .ok cfApp)
    (hNone : FindStatusCondition cfBuild.Status.Conditions SucceededConditionType = none)
    (hOwner : r.SetControllerReference cfApp cfBuild.stampObservedGeneration = .error err) :
    r.ReconcileResource now cfBuild w =
      (({}, some err), cfBuild.stampObservedGeneration,
        { store := (r.Clean w.store cfBuild.Namespace cfApp.Name).2
          calls := w.calls ++
            [{ call := .GetCFApp cfBuild.Namespace cfBuild.Spec.AppRef.Name
               cfBuild := cfBuild.stampObservedGeneration },
              { call := .Clean cfBuild.Namespace cfApp.Name
                cfBuild := cfBuild.stampObservedGeneration },
              { call := .SetControllerReference cfApp
                cfBuild := cfBuild.stampObservedGeneration }] }) := by
  simp only [CFBuild.stampObservedGeneration] at hOwner
  simp [Reconciler.ReconcileResource, hNotDeleting, CFBuild.stampObservedGeneration,
    BuildWorld.logCall, hApp, hNone, hOwner]

theorem reconcileResource_package_error {σ : Type} (r : Reconciler σ) (now : Time)
    (cfBuild : CFBuild) (w : BuildWorld σ) (cfApp : CFApp)
    (ownerReferences : List OwnerReference) (err : K8sError)
    (hNotDeleting : TimeIsZero cfBuild.DeletionTimestamp = true)
    (hApp : r.GetCFApp w.store cfBuild.Namespace cfBuild.Spec.AppRef.Name = .ok cfApp)
    (hNone : FindStatusCondition cfBuild.Status.Conditions SucceededConditionType = none)
    (hOwner : r.SetControllerReference cfApp cfBuild.stampObservedGeneration =
      .ok ownerReferences)
    (hPackage : r.GetCFPackage (r.Clean w.store cfBuild.Namespace cfApp.Name).2
      cfBuild.Namespace cfBuild.Spec.PackageRef.Name = .error err) :
    r.ReconcileResource now cfBuild w =
      (({}, some (.k8s err)),
        { cfBuild.stampObservedGeneration with OwnerReferences := ownerReferences },
        { store := (r.Clean w.store cfBuild.Namespace cfApp.Name).2
          calls := w.calls ++
            [{ call := .GetCFApp cfBuild.Namespace cfBuild.Spec.AppRef.Name
               cfBuild := cfBuild.stampObservedGeneration },
              { call := .Clean cfBuild.Namespace cfApp.Name
                cfBuild := cfBuild.stampObservedGeneration },
              { call := .SetControllerReference cfApp
                cfBuild := cfBuild.stampObservedGeneration },
              { call := .GetCFPackage cfBuild.Namespace cfBuild.Spec.PackageRef.Name
                cfBuild :=
                  { cfBuild.stampObservedGeneration with
                    OwnerReferences := ownerReferences } }] }) := by
  simp only [CFBuild.stampObservedGeneration] at hOwner
  simp [Reconciler.ReconcileResource, hNotDeleting, CFBuild.stampObservedGeneration,
    BuildWorld.logCall, hApp, hNone, hOwner, hPackage]

theorem reconcileResource_invalid {σ : Type} (r : Reconciler σ) (now : Time)
    (cfBuild : CFBuild) (w : BuildWorld σ) (cfApp : CFApp)
    (ownerReferences : List OwnerReference) (cfPackage : CFPackage) (message : String)
    (hNotDeleting : TimeIsZero cfBuild.DeletionTimestamp = true)
    (hApp : r.GetCFApp w.store cfBuild.Namespace cfBuild.Spec.AppRef.Name = .ok cfApp)
    (hNone : FindStatusCondition cfBuild.Status.Conditions SucceededConditionType = none)
    (hOwner : r.SetControllerReference cfApp cfBuild.stampObservedGeneration =
      .ok ownerReferences)
    (hPackage : r.GetCFPackage (r.Clean w.store cfBuild.Namespace cfApp.Name).2
      cfBuild.Namespace cfBuild.Spec.PackageRef.Name = .ok cfPackage)
    (hInvalid : validateLifecycleTypes cfApp cfPackage cfBuild = some message) :
    r.ReconcileResource now cfBuild w =
      (({}, none),
        { cfBuild with
          OwnerReferences := ownerReferences
          Status :=
            { ObservedGeneration := cfBuild.Generation
              Conditions :=
                SetStatusCondition now
                  (SetStatusCondition now cfBuild.Status.Conditions
                    { Type_ := SucceededConditionType
                      Status := ConditionFalse
                      Reason := "BuildFailed"
                      Message := message
                      ObservedGeneration := cfBuild.Generation })
                  { Type_ := StagingConditionType
                    Status := ConditionFalse
                    Reason := "BuildNotRunning"
                    ObservedGeneration := cfBuild.Generation } } },
        { store := (r.Clean w.store cfBuild.Namespace cfApp.Name).2
          calls := w.calls ++
            [{ call := .GetCFApp cfBuild.Namespace cfBuild.Spec.AppRef.Name
               cfBuild := cfBuild.stampObservedGeneration },
              { call := .Clean cfBuild.Namespace cfApp.Name
                cfBuild := cfBuild.stampObservedGeneration },
              { call := .SetControllerReference cfApp
                cfBuild := cfBuild.stampObservedGeneration },
              { call := .GetCFPackage cfBuild.Namespace cfBuild.Spec.PackageRef.Name
                cfBuild :=
                  { cfBuild.stampObservedGeneration with
                    OwnerReferences := ownerReferences } }] }) := by
  have hInvalid' : validateLifecycleTypes cfApp cfPackage
      { cfBuild.stampObservedGeneration with OwnerReferences := ownerReferences } =
        some message := by
    exact (validateLifecycleTypes_of_spec cfApp cfPackage cfBuild _ rfl).trans hInvalid
  simp only [CFBuild.stampObservedGeneration] at hOwner hInvalid'
  simp [Reconciler.ReconcileResource, hNotDeleting, CFBuild.stampObservedGeneration,
    BuildWorld.logCall, hApp, hNone, hOwner, hPackage, hInvalid']

theorem reconcileResource_delegate {σ : Type} (r : Reconciler σ) (now : Time)
    (cfBuild : CFBuild) (w : BuildWorld σ) (cfApp : CFApp)
    (ownerReferences : List OwnerReference) (cfPackage : CFPackage)
    (hNotDeleting : TimeIsZero cfBuild.DeletionTimestamp = true)
    (hApp : r.GetCFApp w.store cfBuild.Namespace cfBuild.Spec.AppRef.Name = .ok cfApp)
    (hNone : FindStatusCondition cfBuild.Status.Conditions SucceededConditionType = none)
    (hOwner : r.SetControllerReference cfApp cfBuild.stampObservedGeneration =
      .ok ownerReferences)
    (hPackage : r.GetCFPackage (r.Clean w.store cfBuild.Namespace cfApp.Name).2
      cfBuild.Namespace cfBuild.Spec.PackageRef.Name = .ok cfPackage)
    (hValid : validateLifecycleTypes cfApp cfPackage cfBuild = none) :
    r.ReconcileResource now cfBuild w =
      ((r.ReconcileBuild (r.Clean w.store cfBuild.Namespace cfApp.Name).2
          { cfBuild.stampObservedGeneration with OwnerReferences := ownerReferences }
          cfApp cfPackage).1,
        (r.ReconcileBuild (r.Clean w.store cfBuild.Namespace cfApp.Name).2
          { cfBuild.stampObservedGeneration with OwnerReferences := ownerReferences }
          cfApp cfPackage).2.1,
        { store := (r.ReconcileBuild (r.Clean w.store cfBuild.Namespace cfApp.Name).2
            { cfBuild.stampObservedGeneration with OwnerReferences := ownerReferences }
            cfApp cfPackage).2.2
          calls := w.calls ++
            [{ call := .GetCFApp cfBuild.Namespace cfBuild.Spec.AppRef.Name
               cfBuild := cfBuild.stampObservedGeneration },
              { call := .Clean cfBuild.Namespace cfApp.Name
                cfBuild := cfBuild.stampObservedGeneration },
              { call := .SetControllerReference cfApp
                cfBuild := cfBuild.stampObservedGeneration },
              { call := .GetCFPackage cfBuild.Namespace cfBuild.Spec.PackageRef.Name
                cfBuild :=
                  { cfBuild.stampObservedGeneration with
                    OwnerReferences := ownerReferences } },
              { call := .ReconcileBuild cfApp cfPackage
                cfBuild :=
                  { cfBuild.stampObservedGeneration with
                    OwnerReferences := ownerReferences } }] }) := by
  have hValid' : validateLifecycleTypes cfApp cfPackage
      { cfBuild.stampObservedGeneration with OwnerReferences := ownerReferences } = none := by
    exact (validateLifecycleTypes_of_spec cfApp cfPackage cfBuild _ rfl).trans hValid
  simp only [CFBuild.stampObservedGeneration] at hOwner hValid'
  simp [Reconciler.ReconcileResource, hNotDeleting, CFBuild.stampObservedGeneration,
    BuildWorld.logCall, hApp, hNone, hOwner, hPackage, hValid']

/-- C16: for a build without deletion timestamp, when the fetch of the owning
app fails, or when (the build has no Succeeded condition, the pass has reached
the package and) the fetch of the source package fails, `ReconcileResource`
returns the fetch error, does not call the delegate and leaves
`status.conditions` unchanged. -/
theorem reconcileResource_missing_dependency {σ : Type} (r : Reconciler σ) (now : Time)
    (cfBuild : CFBuild) (w : BuildWorld σ)
    (hNotDeleting : TimeIsZero cfBuild.DeletionTimestamp = true) :
    (∀ err, r.GetCFApp w.store cfBuild.Namespace cfBuild.Spec.AppRef.Name = .error err →
      (r.ReconcileResource now cfBuild w).1 = ({}, some (.k8s err)) ∧
        (r.ReconcileResource now cfBuild w).2.1.Status.Conditions =
          cfBuild.Status.Conditions ∧
        (r.ReconcileResource now cfBuild w).2.2.calls.filter
            (fun lc => lc.call.isReconcileBuild) =
          w.calls.filter (fun lc => lc.call.isReconcileBuild)) ∧
    (∀ cfApp ownerReferences err,
      r.GetCFApp w.store cfBuild.Namespace cfBuild.Spec.AppRef.Name = .ok cfApp →
      FindStatusCondition cfBuild.Status.Conditions SucceededConditionType = none →
      r.SetControllerReference cfApp cfBuild.stampObservedGeneration = .ok ownerReferences →
      r.GetCFPackage (r.Clean w.store cfBuild.Namespace cfApp.Name).2
        cfBuild.Namespace cfBuild.Spec.PackageRef.Name = .error err →
      (r.ReconcileResource now cfBuild w).1 = ({}, some (.k8s err)) ∧
        (r.ReconcileResource now cfBuild w).2.1.Status.Conditions =
          cfBuild.Status.Conditions ∧
        (r.ReconcileResource now cfBuild w).2.2.calls.filter
            (fun lc => lc.call.isReconcileBuild) =
          w.calls.filter (fun lc => lc.call.isReconcileBuild)) := by
  refine ⟨?_, ?_⟩
  · intro err hApp
    rw [reconcileResource_app_error r now cfBuild w err hNotDeleting hApp]
    simp [CFBuild.stampObservedGeneration, ReconcilerCall.isReconcileBuild]
  · intro cfApp ownerReferences err hApp hNone hOwner hPackage
    rw [reconcileResource_package_error r now cfBuild w cfApp ownerReferences err hNotDeleting
      hApp hNone hOwner hPackage]
    simp [CFBuild.stampObservedGeneration, ReconcilerCall.isReconcileBuild]

/-- C16, at the example build of a package that the store does not hold: the
not-found error of the package read is returned. -/
theorem reconcileResource_missing_dependency_witness :
    ((exampleReconciler none).ReconcileResource 5 (exampleBuild "pkg-missing")
        { store := exampleBuildStore }).1 =
      ({}, some (.k8s (.notFound "pkg-missing"))) :=
  ((reconcileResource_missing_dependency (exampleReconciler none) 5
    (exampleBuild "pkg-missing") { store := exampleBuildStore } rfl).2
    { Name := "app-1", Namespace := "space-1",
      Spec := { Lifecycle := { Type_ := "buildpack" } } }
    [{ APIVersion := GroupVersionIdentifier, Kind := "CFApp", Name := "app-1",
       Controller := some true, BlockOwnerDeletion := some true }]
    (.notFound "pkg-missing") rfl rfl rfl rfl).1

/-- C11: for a build without deletion timestamp and without Succeeded
condition whose app and package are fetched (the owner reference having been
set in between), when `validateLifecycleTypes` fails, `ReconcileResource`
returns the empty result and no error, does not call the delegate, and leaves
the build with a Succeeded condition of status False, reason "BuildFailed" and
the validation error as message, and with a Staging condition of status False
and reason "BuildNotRunning". -/
theorem reconcileResource_validation_failure {σ : Type} (r : Reconciler σ) (now : Time)
    (cfBuild : CFBuild) (w : BuildWorld σ) (cfApp : CFApp)
    (ownerReferences : List OwnerReference) (cfPackage : CFPackage) (message : String)
    (hNotDeleting : TimeIsZero cfBuild.DeletionTimestamp = true)
    (hApp : r.GetCFApp w.store cfBuild.Namespace cfBuild.Spec.AppRef.Name = .ok cfApp)
    (hNone : FindStatusCondition cfBuild.Status.Conditions SucceededConditionType = none)
    (hOwner : r.SetControllerReference cfApp cfBuild.stampObservedGeneration =
      .ok ownerReferences)
    (hPackage : r.GetCFPackage (r.Clean w.store cfBuild.Namespace cfApp.Name).2
      cfBuild.Namespace cfBuild.Spec.PackageRef.Name = .ok cfPackage)
    (hInvalid : validateLifecycleTypes cfApp cfPackage cfBuild = some message) :
    (r.ReconcileResource now cfBuild w).1 = ({}, none) ∧
      ((r.ReconcileResource now cfBuild w).2.2.calls.filter
          (fun lc => lc.call.isReconcileBuild) =
        w.calls.filter (fun lc => lc.call.isReconcileBuild)) ∧
      (∃ succeeded,
        FindStatusCondition (r.ReconcileResource now cfBuild w).2.1.Status.Conditions
            SucceededConditionType = some succeeded ∧
          succeeded.Status = ConditionFalse ∧ succeeded.Reason = "BuildFailed" ∧
          succeeded.Message = message) ∧
      (∃ staging,
        FindStatusCondition (r.ReconcileResource now cfBuild w).2.1.Status.Conditions
            StagingConditionType = some staging ∧
          staging.Status = ConditionFalse ∧ staging.Reason = "BuildNotRunning") := by
  rw [reconcileResource_invalid r now cfBuild w cfApp ownerReferences cfPackage message
    hNotDeleting hApp hNone hOwner hPackage hInvalid]
  refine ⟨rfl, by simp [ReconcilerCall.isReconcileBuild], ?_, ?_⟩
  · obtain ⟨c, hFind, _, hStatus, hReason, hMessage, _⟩ :=
      findStatusCondition_setStatusCondition_same now cfBuild.Status.Conditions
        { Type_ := SucceededConditionType
          Status := ConditionFalse
          Reason := "BuildFailed"
          Message := message
          ObservedGeneration := cfBuild.Generation }
    refine ⟨c, ?_, hStatus, hReason, hMessage⟩
    simp only
    have hTypes : StagingConditionType ≠ SucceededConditionType := by decide
    rw [findStatusCondition_setStatusCondition_other _ _ _ _ hTypes]
    exact hFind
  · obtain ⟨c, hFind, _, hStatus, hReason, _, _⟩ :=
      findStatusCondition_setStatusCondition_same now
        (SetStatusCondition now cfBuild.Status.Conditions
          { Type_ := SucceededConditionType
            Status := ConditionFalse
            Reason := "BuildFailed"
            Message := message
            ObservedGeneration := cfBuild.Generation })
        { Type_ := StagingConditionType
          Status := ConditionFalse
          Reason := "BuildNotRunning"
          ObservedGeneration := cfBuild.Generation }
    exact ⟨c, hFind, hStatus, hReason⟩

/-- C11, at the example buildpack build of a docker package: the message of the
Succeeded condition is "cannot build docker package with buildpack build". -/
theorem reconcileResource_validation_failure_witness :
    ∃ succeeded,
      FindStatusCondition
          ((exampleReconciler none).ReconcileResource 5 (exampleBuild "pkg-docker")
            { store := exampleBuildStore }).2.1.Status.Conditions
          SucceededConditionType = some succeeded ∧
        succeeded.Status = ConditionFalse ∧ succeeded.Reason = "BuildFailed" ∧
        succeeded.Message = "cannot build docker package with buildpack build" :=
  (reconcileResource_validation_failure (exampleReconciler none) 5
    (exampleBuild "pkg-docker") { store := exampleBuildStore }
    { Name := "app-1", Namespace := "space-1",
      Spec := { Lifecycle := { Type_ := "buildpack" } } }
    [{ APIVersion := GroupVersionIdentifier, Kind := "CFApp", Name := "app-1",
       Controller := some true, BlockOwnerDeletion := some true }]
    { Name := "pkg-docker", Namespace := "space-1", Spec := { Type_ := "docker" } }
    "cannot build docker package with buildpack build" rfl rfl rfl rfl rfl rfl).2.2.1

/-- C17: the result, the returned error, the final build, the final store and
the calls made by `ReconcileResource` do not depend on the error that the
cleaner returns: two reconcilers that differ only in that error behave alike. -/
theorem reconcileResource_cleaner_error_irrelevant {σ : Type} (r : Reconciler σ)
    (cleanError otherCleanError : σ → String → String → Option Err) (now : Time)
    (cfBuild : CFBuild) (w : BuildWorld σ) :
    Reconciler.ReconcileResource
        { r with Clean := fun store ns name => (cleanError store ns name, (r.Clean store ns name).2) }
        now cfBuild w =
      Reconciler.ReconcileResource
        { r with
          Clean := fun store ns name => (otherCleanError store ns name, (r.Clean store ns name).2) }
        now cfBuild w := by
  simp only [Reconciler.ReconcileResource]

/-- C15, refuted as stated: the example build has no deletion timestamp and
generation 2; with a delegate that resets the observed generation, the pass
returns the delegate's build, whose `status.observedGeneration` is 0. -/
theorem reconcileResource_delegate_owns_build :
    TimeIsZero (exampleBuild "pkg-bits").DeletionTimestamp = true ∧
      (exampleResettingReconciler.ReconcileResource 5 (exampleBuild "pkg-bits")
          { store := exampleBuildStore }).2.1.Status.ObservedGeneration = 0 ∧
      (exampleResettingReconciler.ReconcileResource 5 (exampleBuild "pkg-bits")
          { store := exampleBuildStore }).2.1.Generation = 2 ∧
      ((exampleResettingReconciler.ReconcileResource 5 (exampleBuild "pkg-bits")
          { store := exampleBuildStore }).2.2.calls.map (fun lc => lc.call.isReconcileBuild)) =
        [false, false, false, false, true] :=
  ⟨rfl, rfl, rfl, rfl⟩

/-- C15, amended: for a build without deletion timestamp, every call of the
pass (store read, cleaner, owner-reference write, delegate) is made with the
build already stamped, `status.observedGeneration` being the build's
generation, and the first call is the read of the app; on every exit path that
does not go through the delegate the build ends with
`status.observedGeneration` equal to its generation; on the delegate path the
pass returns the result and the build of the delegate, which has received the
stamped build with the owner references set. -/
theorem reconcileResource_stamps_first {σ : Type} (r : Reconciler σ) (now : Time)
    (cfBuild : CFBuild) (w : BuildWorld σ)
    (hNotDeleting : TimeIsZero cfBuild.DeletionTimestamp = true) :
    (∃ newCalls,
      (r.ReconcileResource now cfBuild w).2.2.calls = w.calls ++ newCalls ∧
        newCalls.head? =
          some { call := .GetCFApp cfBuild.Namespace cfBuild.Spec.AppRef.Name
                 cfBuild := cfBuild.stampObservedGeneration } ∧
        ∀ lc ∈ newCalls,
          lc.cfBuild.Status.ObservedGeneration = cfBuild.Generation ∧
            lc.cfBuild.Generation = cfBuild.Generation) ∧
      ((r.ReconcileResource now cfBuild w).2.2.calls.filter
            (fun lc => lc.call.isReconcileBuild) =
          w.calls.filter (fun lc => lc.call.isReconcileBuild) →
        (r.ReconcileResource now cfBuild w).2.1.Status.ObservedGeneration =
            cfBuild.Generation ∧
          (r.ReconcileResource now cfBuild w).2.1.Generation = cfBuild.Generation) ∧
      ((r.ReconcileResource now cfBuild w).2.2.calls.filter
            (fun lc => lc.call.isReconcileBuild) ≠
          w.calls.filter (fun lc => lc.call.isReconcileBuild) →
        ∃ store stamped cfApp cfPackage,
          stamped.Status.ObservedGeneration = cfBuild.Generation ∧
            stamped.Generation = cfBuild.Generation ∧
            stamped.Status.Conditions = cfBuild.Status.Conditions ∧
            (r.ReconcileResource now cfBuild w).1 =
              (r.ReconcileBuild store stamped cfApp cfPackage).1 ∧
            (r.ReconcileResource now cfBuild w).2.1 =
              (r.ReconcileBuild store stamped cfApp cfPackage).2.1) := by
  cases hApp : r.GetCFApp w.store cfBuild.Namespace cfBuild.Spec.AppRef.Name with
  | error err =>
    rw [reconcileResource_app_error r now cfBuild w err hNotDeleting hApp]
    exact ⟨⟨_, rfl, rfl, by simp [CFBuild.stampObservedGeneration]⟩,
      by simp [CFBuild.stampObservedGeneration],
      by simp [ReconcilerCall.isReconcileBuild]⟩
  | ok cfApp =>
    cases hFind : FindStatusCondition cfBuild.Status.Conditions SucceededConditionType with
    | some succeededStatus =>
      rw [reconcileResource_completed r now cfBuild w succeededStatus cfApp hNotDeleting
        hFind hApp]
      exact ⟨⟨_, rfl, rfl, by simp [CFBuild.stampObservedGeneration]⟩,
        by simp [CFBuild.stampObservedGeneration],
        by simp [ReconcilerCall.isReconcileBuild]⟩
    | none =>
      cases hOwner : r.SetControllerReference cfApp cfBuild.stampObservedGeneration with
      | error err =>
        rw [reconcileResource_owner_error r now cfBuild w cfApp err hNotDeleting hApp hFind
          hOwner]
        exact ⟨⟨_, rfl, rfl, by simp [CFBuild.stampObservedGeneration]⟩,
          by simp [CFBuild.stampObservedGeneration],
          by simp [ReconcilerCall.isReconcileBuild]⟩
      | ok ownerReferences =>
        cases hPackage : r.GetCFPackage (r.Clean w.store cfBuild.Namespace cfApp.Name).2
            cfBuild.Namespace cfBuild.Spec.PackageRef.Name with
        | error err =>
          rw [reconcileResource_package_error r now cfBuild w cfApp ownerReferences err
            hNotDeleting hApp hFind hOwner hPackage]
          exact ⟨⟨_, rfl, rfl, by simp [CFBuild.stampObservedGeneration]⟩,
            by simp [CFBuild.stampObservedGeneration],
            by simp [ReconcilerCall.isReconcileBuild]⟩
        | ok cfPackage =>
          cases hValidate : validateLifecycleTypes cfApp cfPackage cfBuild with
          | some message =>
            rw [reconcileResource_invalid r now cfBuild w cfApp ownerReferences cfPackage
              message hNotDeleting hApp hFind hOwner hPackage hValidate]
            exact ⟨⟨_, rfl, rfl, by simp [CFBuild.stampObservedGeneration]⟩,
              by simp, by simp [ReconcilerCall.isReconcileBuild]⟩
          | none =>
            rw [reconcileResource_delegate r now cfBuild w cfApp ownerReferences cfPackage
              hNotDeleting hApp hFind hOwner hPackage hValidate]
            refine ⟨⟨_, rfl, rfl, by simp [CFBuild.stampObservedGeneration]⟩, ?_, ?_⟩
            · intro hNoDelegate
              simp [ReconcilerCall.isReconcileBuild] at hNoDelegate
            · intro _
              exact ⟨(r.Clean w.store cfBuild.Namespace cfApp.Name).2,
                { cfBuild.stampObservedGeneration with OwnerReferences := ownerReferences },
                cfApp, cfPackage, by simp [CFBuild.stampObservedGeneration],
                by simp [CFBuild.stampObservedGeneration],
                by simp [CFBuild.stampObservedGeneration], rfl, rfl⟩

/-- C15 as amended, at the example buildpack build of a docker package, of
generation 2 and observed at generation 1: the pass ends in the validation
failure, without a delegate call, and the build is observed at generation 2. -/
theorem reconcileResource_stamps_first_witness :
    ((exampleReconciler none).ReconcileResource 5 (exampleBuild "pkg-docker")
        { store := exampleBuildStore }).2.1.Status.ObservedGeneration = 2 :=
  ((reconcileResource_stamps_first (exampleReconciler none) 5 (exampleBuild "pkg-docker")
    { store := exampleBuildStore } rfl).2.1 rfl).1

/-- C18, refuted as stated: for the example build with deletion timestamp 3 the
pass makes no call, so the cleaner is not called and has recorded no app; and
for a build whose app the store does not hold the only call is the read of the
app. -/
theorem reconcileResource_cleaner_not_first :
    ((exampleReconciler none).ReconcileResource 5
          { exampleBuild "pkg-bits" with DeletionTimestamp := some 3 }
          { store := exampleBuildStore }).2.2.calls = [] ∧
      ((exampleReconciler none).ReconcileResource 5
          { exampleBuild "pkg-bits" with DeletionTimestamp := some 3 }
          { store := exampleBuildStore }).2.2.store.cleaned = [] ∧
      (((exampleReconciler none).ReconcileResource 5 (exampleBuild "pkg-bits")
          { store := { exampleBuildStore with apps := [] } }).2.2.calls.map
            (fun lc => lc.call)) = [.GetCFApp "space-1" "app-1"] :=
  ⟨rfl, rfl, rfl⟩

/-- C18, amended: the cleaner is called only for a build that has no deletion
timestamp and whose owning app has been fetched; then it is called once, for
that app in the build's namespace, right after the read of the app and before
the already-succeeded check, the owner-reference write, the read of the package
and the delegate.  For a build that is being deleted, and when the read of the
app fails, the cleaner is not called. -/
theorem reconcileResource_cleaner_order {σ : Type} (r : Reconciler σ) (now : Time)
    (cfBuild : CFBuild) (w : BuildWorld σ) :
    (TimeIsZero cfBuild.DeletionTimestamp = false →
      r.ReconcileResource now cfBuild w = (({}, none), cfBuild, w)) ∧
    (TimeIsZero cfBuild.DeletionTimestamp = true →
      ∀ err, r.GetCFApp w.store cfBuild.Namespace cfBuild.Spec.AppRef.Name = .error err →
        (r.ReconcileResource now cfBuild w).2.2.calls =
          w.calls ++
            [{ call := .GetCFApp cfBuild.Namespace cfBuild.Spec.AppRef.Name
               cfBuild := cfBuild.stampObservedGeneration }]) ∧
    (TimeIsZero cfBuild.DeletionTimestamp = true →
      ∀ cfApp, r.GetCFApp w.store cfBuild.Namespace cfBuild.Spec.AppRef.Name = .ok cfApp →
        ∃ laterCalls,
          (r.ReconcileResource now cfBuild w).2.2.calls =
              w.calls ++
                [{ call := .GetCFApp cfBuild.Namespace cfBuild.Spec.AppRef.Name
                   cfBuild := cfBuild.stampObservedGeneration },
                  { call := .Clean cfBuild.Namespace cfApp.Name
                    cfBuild := cfBuild.stampObservedGeneration }] ++ laterCalls ∧
            ∀ lc ∈ laterCalls, lc.call.isClean = false) := by
  refine ⟨?_, ?_, ?_⟩
  · intro hDeleting
    simp [Reconciler.ReconcileResource, hDeleting]
  · intro hNotDeleting err hApp
    rw [reconcileResource_app_error r now cfBuild w err hNotDeleting hApp]
  · intro hNotDeleting cfApp hApp
    cases hFind : FindStatusCondition cfBuild.Status.Conditions SucceededConditionType with
    | some succeededStatus =>
      rw [reconcileResource_completed r now cfBuild w succeededStatus cfApp hNotDeleting
        hFind hApp]
      exact ⟨[], by simp, by simp⟩
    | none =>
      cases hOwner : r.SetControllerReference cfApp cfBuild.stampObservedGeneration with
      | error err =>
        rw [reconcileResource_owner_error r now cfBuild w cfApp err hNotDeleting hApp hFind
          hOwner]
        exact ⟨[{ call := .SetControllerReference cfApp
                  cfBuild := cfBuild.stampObservedGeneration }], by simp,
          by simp [ReconcilerCall.isClean]⟩
      | ok ownerReferences =>
        cases hPackage : r.GetCFPackage (r.Clean w.store cfBuild.Namespace cfApp.Name).2
            cfBuild.Namespace cfBuild.Spec.PackageRef.Name with
        | error err =>
          rw [reconcileResource_package_error r now cfBuild w cfApp ownerReferences err
            hNotDeleting hApp hFind hOwner hPackage]
          exact ⟨[{ call := .SetControllerReference cfApp
                    cfBuild := cfBuild.stampObservedGeneration },
                  { call := .GetCFPackage cfBuild.Namespace cfBuild.Spec.PackageRef.Name
                    cfBuild :=
                      { cfBuild.stampObservedGeneration with
                        OwnerReferences := ownerReferences } }], by simp,
            by simp [ReconcilerCall.isClean]⟩
        | ok cfPackage =>
          cases hValidate : validateLifecycleTypes cfApp cfPackage cfBuild with
          | some message =>
            rw [reconcileResource_invalid r now cfBuild w cfApp ownerReferences cfPackage
              message hNotDeleting hApp hFind hOwner hPackage hValidate]
            exact ⟨[{ call := .SetControllerReference cfApp
                      cfBuild := cfBuild.stampObservedGeneration },
                    { call := .GetCFPackage cfBuild.Namespace cfBuild.Spec.PackageRef.Name
                      cfBuild :=
                        { cfBuild.stampObservedGeneration with
                          OwnerReferences := ownerReferences } }], by simp,
              by simp [ReconcilerCall.isClean]⟩
          | none =>
            rw [reconcileResource_delegate r now cfBuild w cfApp ownerReferences cfPackage
              hNotDeleting hApp hFind hOwner hPackage hValidate]
            exact ⟨[{ call := .SetControllerReference cfApp
                      cfBuild := cfBuild.stampObservedGeneration },
                    { call := .GetCFPackage cfBuild.Namespace cfBuild.Spec.PackageRef.Name
                      cfBuild :=
                        { cfBuild.stampObservedGeneration with
                          OwnerReferences := ownerReferences } },
                    { call := .ReconcileBuild cfApp cfPackage
                      cfBuild :=
                        { cfBuild.stampObservedGeneration with
                          OwnerReferences := ownerReferences } }], by simp,
              by simp [ReconcilerCall.isClean]⟩

/-- C18 as amended, at the example build: the cleaner is called once, for
"app-1", and a deleting build is returned without any call. -/
theorem reconcileResource_cleaner_order_witness :
    (exampleReconciler none).ReconcileResource 5
          { exampleBuild "pkg-bits" with DeletionTimestamp := some 3 }
          { store := exampleBuildStore } =
        (({}, none), { exampleBuild "pkg-bits" with DeletionTimestamp := some 3 },
          { store := exampleBuildStore }) ∧
      ((exampleReconciler none).ReconcileResource 5 (exampleBuild "pkg-bits")
          { store := exampleBuildStore }).2.2.store.cleaned = ["app-1"] :=
  ⟨(reconcileResource_cleaner_order (exampleReconciler none) 5
      { exampleBuild "pkg-bits" with DeletionTimestamp := some 3 }
      { store := exampleBuildStore }).1 rfl, rfl⟩

/-! ### The organization quotas plugin -/

/-- C21: for a request whose route has bound the `guid` parameter to `g` (the
path `/v3/organization_quotas/g`), the handler's `get` responds with status 200
and no error, and its body has guid `g` and name "org-quota-name"; `ForOrgQuota`
copies the "guid" and "name" entries of any record into the response. -/
theorem orgQuotas_get (h : OrgQuotas) (r : Request) (g : String)
    (hGuid : URLParam r "guid" = g) :
    h.get r = ({ httpStatus := 200, body := { GUID := g, Name := "org-quota-name" } }, none) ∧
      ∀ record : StringMap,
        ForOrgQuota record = { GUID := record.get "guid", Name := record.get "name" } := by
  refine ⟨?_, fun _ => rfl⟩
  subst hGuid
  simp [OrgQuotas.get, ForOrgQuota, StringMap.get, StatusOK, List.lookup]

/-- C21, at the request of the handler test, for the path
`/v3/organization_quotas/org-quota-guid`. -/
theorem orgQuotas_get_witness :
    ({} : OrgQuotas).get { URLParams := [("guid", "org-quota-guid")] } =
      ({ httpStatus := 200, body := { GUID := "org-quota-guid", Name := "org-quota-name" } },
        none) :=
  (orgQuotas_get {} { URLParams := [("guid", "org-quota-guid")] } "org-quota-guid" rfl).1

/-! ### A build that already carries a Succeeded condition -/

/-- C22: for a build without deletion timestamp that carries a Succeeded
condition of any status, whatever generation the condition was written at,
`ReconcileResource` makes no call other than the read of the app and the
cleaner (no owner-reference write, no read of the package that validation
needs, no delegate), and returns the build with `status.conditions` and owner
references unchanged and only `status.observedGeneration` set to the
generation. -/
theorem reconcileResource_any_succeeded_condition {σ : Type} (r : Reconciler σ) (now : Time)
    (cfBuild : CFBuild) (w : BuildWorld σ) (succeededStatus : Condition)
    (hNotDeleting : TimeIsZero cfBuild.DeletionTimestamp = true)
    (hSucceeded : FindStatusCondition cfBuild.Status.Conditions SucceededConditionType =
      some succeededStatus) :
    (r.ReconcileResource now cfBuild w).2.1 = cfBuild.stampObservedGeneration ∧
      (r.ReconcileResource now cfBuild w).2.1.Status.Conditions = cfBuild.Status.Conditions ∧
      ((r.ReconcileResource now cfBuild w).2.2.calls.filter
          (fun lc => lc.call.isReconcileBuild || lc.call.isSetControllerReference ||
            decide (lc.call = .GetCFPackage cfBuild.Namespace cfBuild.Spec.PackageRef.Name)) =
        w.calls.filter
          (fun lc => lc.call.isReconcileBuild || lc.call.isSetControllerReference ||
            decide (lc.call = .GetCFPackage cfBuild.Namespace cfBuild.Spec.PackageRef.Name))) ∧
      (∀ cfApp, r.GetCFApp w.store cfBuild.Namespace cfBuild.Spec.AppRef.Name = .ok cfApp →
        r.ReconcileResource now cfBuild w =
          (({}, none), cfBuild.stampObservedGeneration,
            { store := (r.Clean w.store cfBuild.Namespace cfApp.Name).2
              calls := w.calls ++
                [{ call := .GetCFApp cfBuild.Namespace cfBuild.Spec.AppRef.Name
                   cfBuild := cfBuild.stampObservedGeneration },
                  { call := .Clean cfBuild.Namespace cfApp.Name
                    cfBuild := cfBuild.stampObservedGeneration }] })) := by
  cases hApp : r.GetCFApp w.store cfBuild.Namespace cfBuild.Spec.AppRef.Name with
  | error err =>
    rw [reconcileResource_app_error r now cfBuild w err hNotDeleting hApp]
    simp [CFBuild.stampObservedGeneration, ReconcilerCall.isReconcileBuild,
      ReconcilerCall.isSetControllerReference]
  | ok cfApp =>
    rw [reconcileResource_completed r now cfBuild w succeededStatus cfApp hNotDeleting
      hSucceeded hApp]
    simp [CFBuild.stampObservedGeneration, ReconcilerCall.isReconcileBuild,
      ReconcilerCall.isSetControllerReference]

/-- C22, at the example buildpack build of a docker package, of generation 2,
that a pass at generation 1 marked as failed: the conditions stay as they
were, although validation would fail again. -/
theorem reconcileResource_any_succeeded_condition_witness :
    ((exampleReconciler none).ReconcileResource 5
        { exampleBuild "pkg-docker" with
          Status := { Conditions := [{ Type_ := "Succeeded", Status := "False",
                                       Reason := "BuildFailed", ObservedGeneration := 1 }]
                      ObservedGeneration := 1 } }
        { store := exampleBuildStore }).2.1.Status.Conditions =
      [{ Type_ := "Succeeded", Status := "False", Reason := "BuildFailed",
         ObservedGeneration := 1 }] :=
  (reconcileResource_any_succeeded_condition (exampleReconciler none) 5
    { exampleBuild "pkg-docker" with
      Status := { Conditions := [{ Type_ := "Succeeded", Status := "False",
                                   Reason := "BuildFailed", ObservedGeneration := 1 }]
                  ObservedGeneration := 1 } }
    { store := exampleBuildStore }
    { Type_ := "Succeeded", Status := "False", Reason := "BuildFailed", ObservedGeneration := 1 }
    rfl rfl).2.1

/-! ### The two derived views of a binding -/

theorem serviceBindingToRecord_lastOperation (getLastUpdatedTime : ObjectMeta → Option Time)
    (binding : CFServiceBinding) (record : ServiceBindingRecord)
    (h : serviceBindingToRecord getLastUpdatedTime binding = .ok record) :
    record.LastOperation = serviceBindingRecordLastOperation getLastUpdatedTime binding := by
  simp only [serviceBindingToRecord] at h
  split at h
  · simp at h
  · simp at h
    subst h
    rfl

theorem isBindingReady_find (binding : CFServiceBinding) (h : isBindingReady binding = true) :
    ∃ c, FindStatusCondition binding.Status.Conditions StatusConditionReady = some c ∧
      c.Status = ConditionTrue := by
  unfold isBindingReady IsStatusConditionTrue at h
  by_cases hg : binding.Generation = binding.Status.ObservedGeneration
  · simp [hg] at h
    exact (isStatusConditionPresentAndEqual_iff_find _ _ _).mp h
  · simp [hg] at h

/-- C23: for a binding without deletion timestamp, the last operation is in
state "initial" exactly when the binding has no Ready condition, and it is then
of type "create" whatever the other conditions are, a true BindingFailed
condition included. -/
theorem serviceBindingRecordLastOperation_initial_iff
    (getLastUpdatedTime : ObjectMeta → Option Time) (binding : CFServiceBinding)
    (hNotDeleting : binding.DeletionTimestamp = none) :
    ((serviceBindingRecordLastOperation getLastUpdatedTime binding).State = "initial" ↔
        FindStatusCondition binding.Status.Conditions StatusConditionReady = none) ∧
      (FindStatusCondition binding.Status.Conditions StatusConditionReady = none →
        serviceBindingRecordLastOperation getLastUpdatedTime binding =
          { Type_ := "create"
            State := "initial"
            CreatedAt := binding.CreationTimestamp
            UpdatedAt := getLastUpdatedTime binding.toObjectMeta }) := by
  unfold serviceBindingRecordLastOperation
  cases hr : FindStatusCondition binding.Status.Conditions StatusConditionReady with
  | none => simp [hNotDeleting]
  | some readyCondition =>
    by_cases hTrue : readyCondition.Status = ConditionTrue
    · simp [hNotDeleting, hTrue]
    · by_cases hFailed :
          IsStatusConditionTrue binding.Status.Conditions BindingFailedCondition = true
      · simp [hNotDeleting, hTrue, hFailed]
      · simp [hNotDeleting, hTrue, hFailed]

/-- C23, at a binding whose BindingFailed condition is True and that has no
Ready condition: the last operation is create/"initial". -/
theorem serviceBindingRecordLastOperation_initial_iff_witness :
    serviceBindingRecordLastOperation (fun _ => none)
        { CreationTimestamp := 4
          Status := { Conditions := [{ Type_ := "BindingFailed", Status := "True" }] } } =
      { Type_ := "create", State := "initial", CreatedAt := 4, UpdatedAt := none } :=
  (serviceBindingRecordLastOperation_initial_iff (fun _ => none)
    { CreationTimestamp := 4
      Status := { Conditions := [{ Type_ := "BindingFailed", Status := "True" }] } }
    rfl).2 rfl

/-- C24: for a binding without deletion timestamp, when the `Ready` field of
its record is true, the last operation of the record is of type "create" and
in state "succeeded". -/
theorem serviceBindingToRecord_ready_succeeded
    (getLastUpdatedTime : ObjectMeta → Option Time) (binding : CFServiceBinding)
    (record : ServiceBindingRecord)
    (hRecord : serviceBindingToRecord getLastUpdatedTime binding = .ok record)
    (hNotDeleting : binding.DeletionTimestamp = none)
    (hReady : record.Ready = true) :
    record.LastOperation.Type_ = "create" ∧ record.LastOperation.State = "succeeded" := by
  rw [serviceBindingToRecord_ready getLastUpdatedTime binding record hRecord] at hReady
  obtain ⟨c, hFind, hTrue⟩ := isBindingReady_find binding hReady
  rw [serviceBindingToRecord_lastOperation getLastUpdatedTime binding record hRecord]
  simp [serviceBindingRecordLastOperation, hNotDeleting, hFind, hTrue]

/-- C24, at a binding observed at its generation 3 with a true Ready condition. -/
theorem serviceBindingToRecord_ready_succeeded_witness :
    ∃ record,
      serviceBindingToRecord (fun _ => none)
          { Generation := 3
            Status := { ObservedGeneration := 3
                        Conditions := [{ Type_ := "Ready", Status := "True" }] } } =
          .ok record ∧
        record.Ready = true ∧
        record.LastOperation.Type_ = "create" ∧ record.LastOperation.State = "succeeded" :=
  ⟨_, rfl, rfl,
    serviceBindingToRecord_ready_succeeded (fun _ => none)
      { Generation := 3
        Status := { ObservedGeneration := 3
                    Conditions := [{ Type_ := "Ready", Status := "True" }] } }
      _ rfl rfl rfl⟩

end Korifi
